import Mathlib

/-!
Verification of the mcp-scholar aggregation core against its specification.

Shallow embedding conventions:
* Python `str` values are embedded as `List Char`; ASCII-level character
  classification (`isdigit`, `\w`, whitespace, `lower`) mirrors the behaviour
  of the Python functions on the ASCII inputs the system handles.
* Python `float` quantities (similarity ratios, backoff delays, thresholds)
  are embedded as `ℚ`.  For the fixed threshold 0.85 and the title-length cap
  of 100 characters, the rational comparison `2*M/(la+lb) ≥ 17/20` coincides
  with the double-precision comparison performed by the code (the nearest
  distinct rational with denominator ≤ 200 is 2.5e-4 away from 0.85, far
  beyond double rounding error).
* Python truthiness is embedded explicitly: an `Option` string is truthy when
  it is `some` of a non-empty list, an `Option Int` when it is `some` of a
  non-zero integer.
* A raised exception is embedded as `Option.none` / `Except.error`.
* Python dicts that preserve insertion order are embedded as association
  lists; `set()`-based unions (whose iteration order is unspecified in the
  code) are embedded as order-canonical deduplicated lists.
-/

namespace McpScholar

/-! ## Pythonic string and truthiness helpers -/

/-- Truthiness of an optional string (`if s:` in Python): present and non-empty. -/
def strTruthy : Option (List Char) → Bool
  | none => false
  | some s => !s.isEmpty

/-- Truthiness of an optional integer (`if n:` in Python): present and non-zero. -/
def intTruthy : Option Int → Bool
  | none => false
  | some n => n != 0

/-- `str.lower()` restricted to ASCII, as `Char.toLower`. -/
def pyLower (s : List Char) : List Char := s.map Char.toLower

/-- `str.strip()`: remove leading and trailing whitespace. -/
def pyStrip (s : List Char) : List Char :=
  ((s.dropWhile Char.isWhitespace).reverse.dropWhile Char.isWhitespace).reverse

/-- `str.isdigit()`: non-empty and all digits. -/
def pyIsDigit (s : List Char) : Bool := !s.isEmpty && s.all Char.isDigit

/-- A Python `\w` word character (ASCII): alphanumeric or underscore. -/
def isWordChar (c : Char) : Bool := c.isAlphanum || c == '_'

/-- Decimal rendering of an integer, as produced by Python string interpolation. -/
def intStr (n : Int) : List Char := (toString n).data

/-! ## difflib.SequenceMatcher (no junk: inputs are short, autojunk inert)

`find_longest_match` is the classic dynamic program: for each position `i` of
`a` it walks the occurrences of `a[i]` in `b` (ascending), extending run
lengths from the previous row, and keeps the first longest run found.  With no
junk elements the two extension loops of the Python code are no-ops (the run
found is already maximal), so they are omitted. -/

/-- Ascending list of indices `j` with `blo ≤ j < bhi` and `b[j] = c`
(the `b2j` occurrence list of `difflib`, restricted to the window). -/
def occIdx (b : List Char) (c : Char) (blo bhi : Nat) : List Nat :=
  (List.range b.length).filter
    (fun j => decide (blo ≤ j) && decide (j < bhi) && (b.getD j ' ' == c))

/-- One inner step of `find_longest_match`: process occurrence `j` of `a[i]`,
updating the new row and the current best `(besti, bestj, bestsize)`. -/
def flmStep (oldRow : Nat → Nat) (i : Nat)
    (st : (Nat → Nat) × Nat × Nat × Nat) (j : Nat) : (Nat → Nat) × Nat × Nat × Nat :=
  let k := (if j = 0 then 0 else oldRow (j - 1)) + 1
  let newRow : Nat → Nat := fun j' => if j' = j then k else st.1 j'
  if st.2.2.2 < k then (newRow, i + 1 - k, j + 1 - k, k)
  else (newRow, st.2.1, st.2.2.1, st.2.2.2)

/-- One outer row of `find_longest_match` (one position `i` of `a`). -/
def flmRow (a b : List Char) (blo bhi : Nat)
    (st : (Nat → Nat) × Nat × Nat × Nat) (i : Nat) : (Nat → Nat) × Nat × Nat × Nat :=
  (occIdx b (a.getD i ' ') blo bhi).foldl (flmStep st.1 i) ((fun _ => 0), st.2)

/-- `SequenceMatcher.find_longest_match(alo, ahi, blo, bhi)`:
returns `(besti, bestj, bestsize)`. -/
def findLongestMatch (a b : List Char) (alo ahi blo bhi : Nat) : Nat × Nat × Nat :=
  ((List.range' alo (ahi - alo)).foldl (flmRow a b blo bhi)
    ((fun _ => 0), alo, blo, 0)).2

/-- Total number of matched elements over all matching blocks (the recursive
divide-and-conquer of `get_matching_blocks`), with explicit fuel; the fuel
`a.length + b.length + 1` used below strictly dominates the recursion depth. -/
def matchedGo (a b : List Char) : Nat → Nat → Nat → Nat → Nat → Nat
  | 0, _, _, _, _ => 0
  | fuel + 1, alo, ahi, blo, bhi =>
    let m := findLongestMatch a b alo ahi blo bhi
    if m.2.2 = 0 then 0
    else
      matchedGo a b fuel alo m.1 blo m.2.1 + m.2.2 +
        matchedGo a b fuel (m.1 + m.2.2) ahi (m.2.1 + m.2.2) bhi

/-- Sum of the sizes of all matching blocks of `SequenceMatcher(None, a, b)`. -/
def matchedTotal (a b : List Char) : Nat :=
  matchedGo a b (a.length + b.length + 1) 0 a.length 0 b.length

/-- `SequenceMatcher(None, a, b).ratio() = 2*M / (len(a)+len(b))`. -/
def smRatio (a b : List Char) : ℚ :=
  (2 * matchedTotal a b : ℚ) / ((a.length : ℚ) + (b.length : ℚ))

/-! ## Data model (src/models/author.py, src/models/paper.py) -/

/-- `Author` dataclass.  `recent_papers` is an untyped Python list used only by
the presentation layer; it is embedded as a list of opaque blobs. -/
structure Author where
  name : List Char
  openalex_id : Option (List Char) := none
  s2_author_id : Option (List Char) := none
  scopus_author_id : Option (List Char) := none
  orcid : Option (List Char) := none
  affiliations : List (List Char) := []
  paper_count : Option Int := none
  citation_count : Option Int := none
  h_index : Option Int := none
  homepage : Option (List Char) := none
  sources : List (List Char) := []
  recent_papers : List (List Char) := []
  deriving DecidableEq, Repr

/-- `PaperSource` string enum. -/
inductive PaperSource where
  | OPENALEX
  | SEMANTIC_SCHOLAR
  | SCOPUS
  | SCIX
  deriving DecidableEq, Repr

/-- `Paper` dataclass.  `raw_data` maps a provider name to that provider's raw
payload (an opaque blob here); `acquired_at` is the creation timestamp string. -/
structure Paper where
  doi : Option (List Char) := none
  openalex_id : Option (List Char) := none
  s2_paper_id : Option (List Char) := none
  s2_corpus_id : Option Int := none
  scopus_eid : Option (List Char) := none
  scix_bibcode : Option (List Char) := none
  arxiv_id : Option (List Char) := none
  pmid : Option (List Char) := none
  title : List Char := []
  authors : List Author := []
  year : Option Int := none
  publication_date : Option (List Char) := none
  abstract : Option (List Char) := none
  journal : Option (List Char) := none
  venue : Option (List Char) := none
  volume : Option (List Char) := none
  issue : Option (List Char) := none
  pages : Option (List Char) := none
  publisher : Option (List Char) := none
  citation_count : Option Int := none
  reference_count : Option Int := none
  influential_citation_count : Option Int := none
  fields_of_study : List (List Char) := []
  keywords : List (List Char) := []
  publication_types : List (List Char) := []
  is_open_access : Bool := false
  open_access_url : Option (List Char) := none
  pdf_url : Option (List Char) := none
  embedding : Option (List ℚ) := none
  embedding_model : Option (List Char) := none
  tldr : Option (List Char) := none
  sources : List PaperSource := []
  primary_source : Option PaperSource := none
  raw_data : List (List Char × List Char) := []
  acquired_at : List Char := []
  confidence_score : ℚ := 1
  deriving DecidableEq, Repr

namespace Paper

/-- `Paper._normalize_title`: lowercase, strip, drop characters that are
neither word characters nor whitespace, truncate to 100 characters. -/
def normalize_title (p : Paper) : List Char :=
  ((pyStrip (pyLower p.title)).filter
    (fun c => isWordChar c || c.isWhitespace)).take 100

/-- `Paper.get_canonical_id`: fixed identifier priority with a
normalized-title + year fallback. -/
def get_canonical_id (p : Paper) : List Char :=
  if strTruthy p.doi then ("doi:").data ++ pyLower (p.doi.getD [])
  else if intTruthy p.s2_corpus_id then ("s2:").data ++ intStr (p.s2_corpus_id.getD 0)
  else if strTruthy p.openalex_id then ("oa:").data ++ p.openalex_id.getD []
  else if strTruthy p.scopus_eid then ("scopus:").data ++ p.scopus_eid.getD []
  else if strTruthy p.scix_bibcode then ("scix:").data ++ p.scix_bibcode.getD []
  else
    ("title:").data ++ p.normalize_title ++ (":").data ++
      intStr (if intTruthy p.year then p.year.getD 0 else 0)

end Paper

/-! ## MetadataMerger (src/services/merger.py)

`merge` is embedded functionally: the Python code mutates the chosen base
record in place; here the updated base is returned.  `merge([])` reaches
`max([])`, which raises `ValueError`; this is embedded as `none`. -/

namespace MetadataMerger

/-- `_completeness_score`. -/
def completeness_score (p : Paper) : Nat :=
  (if !p.title.isEmpty then 10 else 0) +
  (if strTruthy p.abstract then 20 else 0) +
  (if !p.authors.isEmpty then p.authors.length * 2 else 0) +
  (if strTruthy p.doi then 15 else 0) +
  (if intTruthy p.year then 5 else 0) +
  (if p.citation_count.isSome then 5 else 0) +
  (if strTruthy p.tldr then 5 else 0) +
  (if !p.fields_of_study.isEmpty then 3 else 0) +
  (if p.is_open_access then 2 else 0) +
  (if strTruthy p.pdf_url then 5 else 0)

/-- Python `max(papers, key=score)`: the first element attaining the maximum. -/
def maxByScore (p0 : Paper) (rest : List Paper) : Paper :=
  rest.foldl (fun best q =>
    if completeness_score best < completeness_score q then q else best) p0

/-- The identifier backfill loop: copy each identifier onto the base when the
base lacks it, scanning group members in order. -/
def backfillIds (base : Paper) (papers : List Paper) : Paper :=
  papers.foldl (fun b p =>
    let b := if strTruthy p.doi && !strTruthy b.doi then { b with doi := p.doi } else b
    let b := if strTruthy p.openalex_id && !strTruthy b.openalex_id then
               { b with openalex_id := p.openalex_id } else b
    let b := if strTruthy p.s2_paper_id && !strTruthy b.s2_paper_id then
               { b with s2_paper_id := p.s2_paper_id } else b
    let b := if intTruthy p.s2_corpus_id && !intTruthy b.s2_corpus_id then
               { b with s2_corpus_id := p.s2_corpus_id } else b
    let b := if strTruthy p.scopus_eid && !strTruthy b.scopus_eid then
               { b with scopus_eid := p.scopus_eid } else b
    let b := if strTruthy p.arxiv_id && !strTruthy b.arxiv_id then
               { b with arxiv_id := p.arxiv_id } else b
    let b := if strTruthy p.pmid && !strTruthy b.pmid then { b with pmid := p.pmid } else b
    b) base

/-- `_get_best_value`: scan the ranked sources, returning the first truthy
field value contributed by a record of a ranked source; otherwise fall back to
the first truthy value in member order. -/
def get_best_value {α : Type} (papers : List Paper) (priority : List PaperSource)
    (get : Paper → α) (truthy : α → Bool) : Option α :=
  match priority.findSome? (fun src =>
      papers.findSome? (fun p =>
        if p.sources.contains src && truthy (get p) then some (get p) else none)) with
  | some v => some v
  | none => papers.findSome? (fun p => if truthy (get p) then some (get p) else none)

/-- The `SOURCE_PRIORITY`-driven field fusion, one explicit update per entry of
the table, in the table's order. -/
def applyPriorityFields (papers : List Paper) (base : Paper) : Paper :=
  let base := match get_best_value papers
      [PaperSource.SEMANTIC_SCHOLAR, PaperSource.SCOPUS, PaperSource.OPENALEX]
      (·.abstract) strTruthy with
    | some v => { base with abstract := v } | none => base
  let base := match get_best_value papers
      [PaperSource.OPENALEX, PaperSource.SEMANTIC_SCHOLAR, PaperSource.SCOPUS]
      (·.citation_count) intTruthy with
    | some v => { base with citation_count := v } | none => base
  let base := match get_best_value papers
      [PaperSource.OPENALEX, PaperSource.SCOPUS, PaperSource.SEMANTIC_SCHOLAR]
      (·.authors) (fun l => !l.isEmpty) with
    | some v => { base with authors := v } | none => base
  let base := match get_best_value papers [PaperSource.SEMANTIC_SCHOLAR]
      (·.tldr) strTruthy with
    | some v => { base with tldr := v } | none => base
  let base := match get_best_value papers [PaperSource.SEMANTIC_SCHOLAR]
      (·.influential_citation_count) intTruthy with
    | some v => { base with influential_citation_count := v } | none => base
  let base := match get_best_value papers
      [PaperSource.OPENALEX, PaperSource.SEMANTIC_SCHOLAR]
      (·.fields_of_study) (fun l => !l.isEmpty) with
    | some v => { base with fields_of_study := v } | none => base
  let base := match get_best_value papers
      [PaperSource.OPENALEX, PaperSource.SEMANTIC_SCHOLAR]
      (·.open_access_url) strTruthy with
    | some v => { base with open_access_url := v } | none => base
  let base := match get_best_value papers
      [PaperSource.SEMANTIC_SCHOLAR, PaperSource.OPENALEX]
      (·.pdf_url) strTruthy with
    | some v => { base with pdf_url := v } | none => base
  let base := match get_best_value papers
      [PaperSource.SCOPUS, PaperSource.OPENALEX, PaperSource.SEMANTIC_SCHOLAR]
      (·.journal) strTruthy with
    | some v => { base with journal := v } | none => base
  let base := match get_best_value papers [PaperSource.SCOPUS, PaperSource.OPENALEX]
      (·.publisher) strTruthy with
    | some v => { base with publisher := v } | none => base
  base

/-- Ordered-dict override-or-append update (`dict.update`). -/
def dictUpdate (d upd : List (List Char × List Char)) : List (List Char × List Char) :=
  upd.foldl (fun d e =>
    if d.any (fun e' => e'.1 == e.1) then
      d.map (fun e' => if e'.1 == e.1 then (e'.1, e.2) else e')
    else d ++ [e]) d

/-- The tail of `merge` for groups of size ≥ 2: union fields, sources,
raw payloads, confidence score. -/
def mergeFinish (papers : List Paper) (base : Paper) : Paper :=
  let base := { base with keywords :=
    ((papers.map (fun p : Paper => p.keywords)).flatten).eraseDups }
  let base := { base with fields_of_study :=
    ((papers.map (fun p : Paper => p.fields_of_study)).flatten).eraseDups }
  let base := { base with publication_types :=
    ((papers.map (fun p : Paper => p.publication_types)).flatten).eraseDups }
  let base := { base with sources :=
    ((papers.map (fun p : Paper => p.sources)).flatten).eraseDups }
  let base := { base with raw_data :=
    (papers.foldl (fun rd (p : Paper) => dictUpdate rd p.raw_data) base.raw_data) }
  -- `min(1.0, len(papers) * 0.3 + 0.4)`, written as its conditional form
  { base with confidence_score :=
    (fun cs : ℚ => if 1 ≤ cs then 1 else cs) ((papers.length : ℚ) * (3 / 10) + 2 / 5) }

/-- `MetadataMerger.merge`: a singleton group is returned unchanged, the empty
group raises (`none`), larger groups are fused onto the most complete base. -/
def merge : List Paper → Option Paper
  | [p] => some p
  | [] => none
  | p :: rest =>
    some (mergeFinish (p :: rest)
      (applyPriorityFields (p :: rest) (backfillIds (maxByScore p rest) (p :: rest))))

end MetadataMerger

/-! ## Deduplicator (src/services/deduplicator.py) -/

/-- Insertion-ordered groups, as the Python `dict[str, list[Paper]]`. -/
abbrev Groups := List (List Char × List Paper)

namespace Deduplicator

/-- Normalized DOI used by level 1: `doi.lower().strip()`. -/
def doiNorm (p : Paper) : List Char := pyStrip (pyLower (p.doi.getD []))

/-- `_is_title_match(p1, p2)`; `thr` is the `title_threshold` field. -/
def is_title_match (thr : ℚ) (p1 p2 : Paper) : Bool :=
  if p1.title.isEmpty || p2.title.isEmpty then false
  else if intTruthy p1.year && intTruthy p2.year &&
      decide (1 < (p1.year.getD 0 - p2.year.getD 0).natAbs) then false
  else
    let t1 := p1.normalize_title
    let t2 := p2.normalize_title
    if t1.isEmpty || t2.isEmpty then false
    else decide (thr ≤ smRatio t1 t2)

/-- `_get_dedup_key`: the four-level hierarchy, first match wins. -/
def get_dedup_key (thr : ℚ) (p : Paper) (existing : Groups) : List Char :=
  if strTruthy p.doi then
    let d := doiNorm p
    match existing.find? (fun e => e.2.any (fun q =>
        strTruthy q.doi && (pyStrip (pyLower (q.doi.getD [])) == d))) with
    | some e => e.1
    | none => ("doi:").data ++ d
  else if intTruthy p.s2_corpus_id then
    let key := ("s2:").data ++ intStr (p.s2_corpus_id.getD 0)
    if existing.any (fun e => e.1 == key) then key
    else
      match existing.find? (fun e => e.2.any (fun q =>
          q.s2_corpus_id == p.s2_corpus_id)) with
      | some e => e.1
      | none => key
  else if strTruthy p.openalex_id then
    let key := ("oa:").data ++ p.openalex_id.getD []
    if existing.any (fun e => e.1 == key) then key
    else
      match existing.find? (fun e => e.2.any (fun q =>
          q.openalex_id == p.openalex_id)) with
      | some e => e.1
      | none => key
  else
    match existing.find? (fun e => e.2.any (fun q => is_title_match thr p q)) with
    | some e => e.1
    | none => p.get_canonical_id

/-- `groups[key].append(paper)`: append to the (unique) entry holding `k`,
creating the key at the end when absent (dict keys stay in insertion order). -/
def addToGroups (gs : Groups) (k : List Char) (p : Paper) : Groups :=
  match gs with
  | [] => [(k, [p])]
  | e :: rest => if e.1 == k then (e.1, e.2 ++ [p]) :: rest else e :: addToGroups rest k p

/-- One iteration of the grouping loop of `deduplicate` / `find_duplicates`. -/
def insertPaper (thr : ℚ) (gs : Groups) (p : Paper) : Groups :=
  addToGroups gs (get_dedup_key thr p gs) p

/-- The grouping loop over the whole input list. -/
def dedupGroups (thr : ℚ) (papers : List Paper) : Groups :=
  papers.foldl (insertPaper thr) []

/-- Merge every group in order, propagating a raised exception as `none`. -/
def mergeAll : List (List Paper) → Option (List Paper)
  | [] => some []
  | g :: rest =>
    match MetadataMerger.merge g, mergeAll rest with
    | some m, some ms => some (m :: ms)
    | _, _ => none

/-- `Deduplicator.deduplicate`: group, merge each group, report
`duplicates_removed = len(papers) - len(merged)`. -/
def deduplicate (thr : ℚ) (papers : List Paper) : Option (List Paper × Nat) :=
  if papers.isEmpty then some ([], 0)
  else
    (mergeAll ((dedupGroups thr papers).map (·.2))).map
      (fun ms => (ms, papers.length - ms.length))

/-- `find_duplicates`: the raw groups of size > 1, unmerged. -/
def find_duplicates (thr : ℚ) (papers : List Paper) : List (List Paper) :=
  ((dedupGroups thr papers).map (·.2)).filter (fun g => 1 < g.length)

end Deduplicator

/-! ## RateLimiter (src/rate_limiting/limiter.py)

Only the synchronous state transitions are embedded (`report_429`,
`report_success`, `_check_daily_reset`); monotonic/wall-clock instants are
passed explicitly as rationals. -/

/-- `RateLimitConfig`. -/
structure RateLimitConfig where
  requests_per_second : ℚ
  daily_limit : Option Nat := none
  burst_size : Nat := 1
  retry_after_429 : ℚ := 60
  deriving DecidableEq, Repr

/-- The mutable state of a `RateLimiter` instance. -/
structure RateLimiterState where
  tokens : ℚ
  last_update : ℚ
  daily_count : Nat
  daily_reset : ℚ
  consecutive_429s : Nat
  backoff_until : Option ℚ
  deriving DecidableEq, Repr

namespace RateLimiter

/-- `report_429(retry_after)` at wall-clock instant `now`: increment the
consecutive-failure counter; the backoff span is the hint when it is truthy
(non-zero), otherwise `retry_after_429 * 2 ** consecutive_429s`; the deadline
is `now` plus the span capped at 300 seconds. -/
def report_429 (cfg : RateLimitConfig) (now : ℚ) (retry_after : Option ℚ)
    (st : RateLimiterState) : RateLimiterState :=
  let c := st.consecutive_429s + 1
  let backoff : ℚ :=
    match retry_after with
    | some r => if r != 0 then r else cfg.retry_after_429 * 2 ^ c
    | none => cfg.retry_after_429 * 2 ^ c
  { st with consecutive_429s := c, backoff_until := some (now + min backoff 300) }

/-- `report_success()`. -/
def report_success (st : RateLimiterState) : RateLimiterState :=
  { st with consecutive_429s := 0, backoff_until := none }

/-- `_check_daily_reset()` at wall-clock instant `now`. -/
def check_daily_reset (now : ℚ) (st : RateLimiterState) : RateLimiterState :=
  if 86400 < now - st.daily_reset then { st with daily_count := 0, daily_reset := now }
  else st

end RateLimiter

/-! ## Orchestrator (src/services/orchestrator.py)

The fan-out itself is network/async code; it is embedded by passing the
per-source task outcome explicitly: `outcome s` is what `asyncio.gather(...,
return_exceptions=True)` delivered for source `s` (`Except.error` for a task
that raised).  The `sources` argument is the caller's list after the
`s in self._sources_config` validity filter, so it is already typed. -/

/-- The four configured sources. -/
inductive Src where
  | openalex
  | semantic_scholar
  | scopus
  | scix
  deriving DecidableEq, Repr

/-- The source name as used in metadata strings. -/
def Src.label : Src → List Char
  | .openalex => ("openalex").data
  | .semantic_scholar => ("semantic_scholar").data
  | .scopus => ("scopus").data
  | .scix => ("scix").data

/-- The credential fields of an `Orchestrator` instance. -/
structure OrchConfig where
  openalex_mailto : Option (List Char) := none
  s2_api_key : Option (List Char) := none
  scopus_api_key : Option (List Char) := none
  scix_api_key : Option (List Char) := none
  deriving DecidableEq, Repr

/-- The call-metadata dictionary; a `none` field is an absent key. -/
structure Metadata where
  errorMsg : Option (List Char) := none
  sources_queried : Option (List Src) := none
  results_per_source : Option (List (Src × Nat)) := none
  errors : Option (List (List Char)) := none
  total_before_dedup : Option Nat := none
  duplicates_removed : Option Nat := none
  total_results : Option Nat := none
  query : Option (List Char) := none
  query_type : Option (List Char) := none
  deriving DecidableEq, Repr

namespace Orchestrator

/-- `get_available_sources()`: `openalex` iff the mailto is truthy,
`semantic_scholar` always, `scopus`/`scix` iff their key is truthy. -/
def get_available_sources (cfg : OrchConfig) : List Src :=
  (if strTruthy cfg.openalex_mailto then [Src.openalex] else []) ++
  [Src.semantic_scholar] ++
  (if strTruthy cfg.scopus_api_key then [Src.scopus] else []) ++
  (if strTruthy cfg.scix_api_key then [Src.scix] else [])

/-- The task-dispatch chain shared by `search` and `get_citations`: a source
in the requested list launches a task iff its credential check passes
(`semantic_scholar` unconditionally). -/
def searchEligible (cfg : OrchConfig) (sources : List Src) : List Src :=
  sources.filter (fun s =>
    match s with
    | .openalex => strTruthy cfg.openalex_mailto
    | .semantic_scholar => true
    | .scopus => strTruthy cfg.scopus_api_key
    | .scix => strTruthy cfg.scix_api_key)

/-- The task-dispatch chain of `get_references`: no `scopus` branch exists. -/
def refsEligible (cfg : OrchConfig) (sources : List Src) : List Src :=
  sources.filter (fun s =>
    match s with
    | .openalex => strTruthy cfg.openalex_mailto
    | .semantic_scholar => true
    | .scopus => false
    | .scix => strTruthy cfg.scix_api_key)

/-- `results_per_source[name] = n` (dict assignment: override the unique
entry holding the key, or append it at the end when absent). -/
def rpsSet (rps : List (Src × Nat)) (s : Src) (n : Nat) : List (Src × Nat) :=
  match rps with
  | [] => [(s, n)]
  | e :: rest => if e.1 == s then (e.1, n) :: rest else e :: rpsSet rest s n

/-- The result-collection loop of `search`: accumulate papers, per-source
counts and `"name: message"` error strings over the gathered outcomes. -/
def collectSearch (results : List (Src × Except (List Char) (List Paper))) :
    List Paper × List (Src × Nat) × List (List Char) :=
  results.foldl (fun acc r =>
    match r.2 with
    | .ok ps => (acc.1 ++ ps, rpsSet acc.2.1 r.1 ps.length, acc.2.2)
    | .error m =>
      (acc.1, rpsSet acc.2.1 r.1 0, acc.2.2 ++ [r.1.label ++ (": ").data ++ m]))
    ([], [], [])

/-- The result-collection loop of `get_citations`/`get_references`: like
`collectSearch` but failures are only logged, never recorded in metadata. -/
def collectPlain (results : List (Src × Except (List Char) (List Paper))) :
    List Paper × List (Src × Nat) :=
  results.foldl (fun acc r =>
    match r.2 with
    | .ok ps => (acc.1 ++ ps, rpsSet acc.2 r.1 ps.length)
    | .error _ => (acc.1, rpsSet acc.2 r.1 0))
    ([], [])

/-- `Orchestrator.search`: `sourcesOpt = none` is the Python default
(`sources=None`); a raised exception propagates as `none`. -/
def search (cfg : OrchConfig) (thr : ℚ) (sourcesOpt : Option (List Src))
    (outcome : Src → Except (List Char) (List Paper)) (dedup : Bool) :
    Option (List Paper × Metadata) :=
  let sources := match sourcesOpt with
    | none => get_available_sources cfg
    | some ss => ss
  if sources.isEmpty then
    some ([], { errorMsg := some (("Aucune source disponible").data) })
  else
    let names := searchEligible cfg sources
    let c := collectSearch (names.map (fun s => (s, outcome s)))
    let md0 : Metadata :=
      { sources_queried := some names, results_per_source := some c.2.1,
        errors := some c.2.2 }
    if dedup && !c.1.isEmpty then
      match Deduplicator.deduplicate thr c.1 with
      | none => none
      | some r =>
        some (r.1, { md0 with total_before_dedup := some (c.1.length),
                              duplicates_removed := some r.2,
                              total_results := some (r.1.length) })
    else some (c.1, { md0 with total_results := some (c.1.length) })

/-- `Orchestrator.get_citations`: deduplication always runs; no error list. -/
def get_citations (cfg : OrchConfig) (thr : ℚ) (sourcesOpt : Option (List Src))
    (outcome : Src → Except (List Char) (List Paper)) :
    Option (List Paper × Metadata) :=
  let sources := match sourcesOpt with
    | none => get_available_sources cfg
    | some ss => ss
  let names := searchEligible cfg sources
  let c := collectPlain (names.map (fun s => (s, outcome s)))
  match Deduplicator.deduplicate thr c.1 with
  | none => none
  | some r =>
    some (r.1, { sources_queried := some names, results_per_source := some c.2,
                 total_results := some r.1.length, duplicates_removed := some r.2 })

/-- `Orchestrator.get_references`: like `get_citations` but without a
`scopus` task branch. -/
def get_references (cfg : OrchConfig) (thr : ℚ) (sourcesOpt : Option (List Src))
    (outcome : Src → Except (List Char) (List Paper)) :
    Option (List Paper × Metadata) :=
  let sources := match sourcesOpt with
    | none => get_available_sources cfg
    | some ss => ss
  let names := refsEligible cfg sources
  let c := collectPlain (names.map (fun s => (s, outcome s)))
  match Deduplicator.deduplicate thr c.1 with
  | none => none
  | some r =>
    some (r.1, { sources_queried := some names, results_per_source := some c.2,
                 total_results := some r.1.length, duplicates_removed := some r.2 })

/-- `_is_author_id`: the literal rule chain of the source. -/
def is_author_id (q : List Char) : Bool :=
  if (("A").data).isPrefixOf q && decide (5 < q.length) && pyIsDigit (q.drop 1) then
    true
  else if (("0000-").data).isPrefixOf q ||
      (("https://orcid.org/").data).isPrefixOf q then true
  else if pyIsDigit q && decide (5 < q.length) then true
  else if pyIsDigit q && decide (10 ≤ q.length) then true
  else false

/-- `_merge_two_authors`. -/
def merge_two_authors (a1 a2 : Author) : Author :=
  { name := if !a1.name.isEmpty then a1.name else a2.name
    openalex_id := if strTruthy a1.openalex_id then a1.openalex_id else a2.openalex_id
    s2_author_id := if strTruthy a1.s2_author_id then a1.s2_author_id else a2.s2_author_id
    scopus_author_id :=
      if strTruthy a1.scopus_author_id then a1.scopus_author_id else a2.scopus_author_id
    orcid := if strTruthy a1.orcid then a1.orcid else a2.orcid
    affiliations := ((a1.affiliations ++ a2.affiliations).eraseDups).take 5
    -- `max(x or 0, y or 0) or None`, with `max` written as its conditional form
    paper_count :=
      (fun m => if m != 0 then some m else none)
        ((fun x y : Int => if x < y then y else x)
          (a1.paper_count.getD 0) (a2.paper_count.getD 0))
    citation_count :=
      (fun m => if m != 0 then some m else none)
        ((fun x y : Int => if x < y then y else x)
          (a1.citation_count.getD 0) (a2.citation_count.getD 0))
    h_index :=
      (fun m => if m != 0 then some m else none)
        ((fun x y : Int => if x < y then y else x)
          (a1.h_index.getD 0) (a2.h_index.getD 0))
    homepage := if strTruthy a1.homepage then a1.homepage else a2.homepage
    sources := (a1.sources ++ a2.sources).eraseDups }

/-- `_merge_authors`: left fold of the two-record reducer. -/
def merge_authors : List Author → Author
  | [] => { name := ("Unknown").data }
  | [a] => a
  | a :: rest => rest.foldl merge_two_authors a

/-- The inner loop of `_deduplicate_authors`: merge `a` into the first kept
author with the same ORCID (then `break`). -/
def mergeIntoFirst (a : Author) : List Author → List Author
  | [] => []
  | e :: rest =>
    if e.orcid == a.orcid then merge_two_authors e a :: rest
    else e :: mergeIntoFirst a rest

/-- `_deduplicate_authors`: ORCID-keyed pass; an author whose ORCID was seen
is merged into the first kept author with that ORCID, authors without a
truthy ORCID are always kept. -/
def deduplicate_authors (authors : List Author) : List Author :=
  (authors.foldl (fun (acc : List (List Char) × List Author) a =>
    if strTruthy a.orcid then
      if acc.1.contains (a.orcid.getD []) then (acc.1, mergeIntoFirst a acc.2)
      else (acc.1 ++ [a.orcid.getD []], acc.2 ++ [a])
    else (acc.1, acc.2 ++ [a]))
    ([], [])).2

/-- The task-dispatch list of `_get_author_by_id` (openalex when the mailto
is truthy, always `semantic_scholar`, scopus when its key is truthy). -/
def authorIdSources (cfg : OrchConfig) : List Src :=
  (if strTruthy cfg.openalex_mailto then [Src.openalex] else []) ++
  [Src.semantic_scholar] ++
  (if strTruthy cfg.scopus_api_key then [Src.scopus] else [])

/-- `_get_author_by_id`: a task outcome counts (and contributes) iff it is an
`Author` value; multiple profiles are folded into one. -/
def get_author_by_id (cfg : OrchConfig)
    (outcome : Src → Except (List Char) (Option Author)) (md0 : Metadata) :
    List Author × Metadata :=
  let names := authorIdSources cfg
  let c := (names.map (fun s => (s, outcome s))).foldl
    (fun (acc : List Author × List (Src × Nat)) r =>
      match r.2 with
      | .ok (some a) => (acc.1 ++ [a], rpsSet acc.2 r.1 1)
      | _ => (acc.1, rpsSet acc.2 r.1 0))
    ([], [])
  let authors := if 1 < c.1.length then [merge_authors c.1] else c.1
  (authors,
    { md0 with sources_queried := some names, results_per_source := some c.2,
               total_results := some authors.length })

/-- The task-dispatch list of `_search_authors_by_name`. -/
def authorNameSources (cfg : OrchConfig) : List Src :=
  (if strTruthy cfg.openalex_mailto then [Src.openalex] else []) ++
  [Src.semantic_scholar]

/-- The result-collection loop of `_search_authors_by_name`. -/
def collectAuthors (results : List (Src × Except (List Char) (List Author))) :
    List Author × List (Src × Nat) :=
  results.foldl (fun acc r =>
    match r.2 with
    | .ok as' => (acc.1 ++ as', rpsSet acc.2 r.1 as'.length)
    | .error _ => (acc.1, rpsSet acc.2 r.1 0))
    ([], [])

/-- `_search_authors_by_name`: collect, dedupe by ORCID, report totals over
the full deduplicated list, then truncate the returned list to `limit`. -/
def search_authors_by_name (cfg : OrchConfig)
    (outcome : Src → Except (List Char) (List Author)) (limit : Nat)
    (md0 : Metadata) : List Author × Metadata :=
  let names := authorNameSources cfg
  let c := collectAuthors (names.map (fun s => (s, outcome s)))
  let authors := deduplicate_authors c.1
  (authors.take limit,
    { md0 with sources_queried := some names, results_per_source := some c.2,
               total_results := some authors.length,
               duplicates_removed := some (c.1.length - authors.length) })

/-- `Orchestrator.get_author`: classify the query, then dispatch to the
id-lookup or the name-search path. -/
def get_author (cfg : OrchConfig) (q : List Char)
    (outcomeId : Src → Except (List Char) (Option Author))
    (outcomeName : Src → Except (List Char) (List Author)) (limit : Nat) :
    List Author × Metadata :=
  let md0 : Metadata :=
    { query := some q, query_type := some (("unknown").data),
      sources_queried := some [], results_per_source := some [] }
  if is_author_id q then
    get_author_by_id cfg outcomeId { md0 with query_type := some (("id_lookup").data) }
  else
    search_authors_by_name cfg outcomeName limit
      { md0 with query_type := some (("name_search").data) }

end Orchestrator

/-! ## Verification-side definitions

These definitions are written from the specification's wording (rule lists,
"same group", error lists, …) and are compared with the embedded code in the
theorems below. -/

/-- Papers `p` and `q` were placed into one common group. -/
def SameGroup (gs : Groups) (p q : Paper) : Prop :=
  ∃ e ∈ gs, p ∈ e.2 ∧ q ∈ e.2

/-- Paper `q` is a member of some group. -/
def placedIn (gs : Groups) (q : Paper) : Prop :=
  ∃ e ∈ gs, q ∈ e.2

/-- Total number of paper slots across all groups. -/
def groupSizes (gs : Groups) : Nat :=
  (gs.map (fun e => e.2.length)).sum

/-- The level-1 group key for a normalized DOI. -/
def DoiKey (d : List Char) : List Char := ("doi:").data ++ d

/-- Invariant: a DOI-carrying member always sits in the group keyed by its own
normalized DOI, every `doi:`-keyed group indeed holds such a member, and group
keys are unique. -/
def DoiInv (gs : Groups) : Prop :=
  (∀ e ∈ gs, ∀ q ∈ e.2, strTruthy q.doi = true → e.1 = DoiKey (Deduplicator.doiNorm q)) ∧
  (∀ e ∈ gs, ∀ d, e.1 = DoiKey d →
    ∃ q ∈ e.2, strTruthy q.doi = true ∧ Deduplicator.doiNorm q = d) ∧
  (gs.map Prod.fst).Nodup

/-- A record that carries none of the level-1..3 identifiers
(DOI, S2 corpus id, OpenAlex id). -/
def idLess (p : Paper) : Prop :=
  strTruthy p.doi = false ∧ intTruthy p.s2_corpus_id = false ∧
    strTruthy p.openalex_id = false

/-- Spec rule (a): the OpenAlex `A` marker followed only by digits, length > 5. -/
def authorRuleA (q : List Char) : Bool :=
  (("A").data).isPrefixOf q && decide (5 < q.length) && pyIsDigit (q.drop 1)

/-- Spec rule (b): the literal ORCID prefix or the ORCID URL form. -/
def authorRuleB (q : List Char) : Bool :=
  (("0000-").data).isPrefixOf q || (("https://orcid.org/").data).isPrefixOf q

/-- Spec rule (c): all digits and length > 5. -/
def authorRuleC (q : List Char) : Bool :=
  pyIsDigit q && decide (5 < q.length)

/-- Spec rule (d): all digits and length ≥ 10. -/
def authorRuleD (q : List Char) : Bool :=
  pyIsDigit q && decide (10 ≤ q.length)

/-- The spec's classifier: the rules in the fixed order a, b, c, d; the result
is the index of the first rule that matches (`none` = name search). -/
def authorIdFirstRule (q : List Char) : Option Nat :=
  if authorRuleA q then some 0
  else if authorRuleB q then some 1
  else if authorRuleC q then some 2
  else if authorRuleD q then some 3
  else none

/-- The concatenated records of the sources whose task succeeded, in dispatch
order (the spec's "records drawn only from the succeeding sources"). -/
def okPapers (names : List Src) (outcome : Src → Except (List Char) (List Paper)) :
    List Paper :=
  (names.filterMap (fun s =>
    match outcome s with
    | .ok ps => some ps
    | .error _ => none)).flatten

/-- The `"name: message"` strings of the sources whose task raised, in
dispatch order (the spec's "errors naming exactly the failing sources"). -/
def failMsgs (names : List Src) (outcome : Src → Except (List Char) (List Paper)) :
    List (List Char) :=
  names.filterMap (fun s =>
    match outcome s with
    | .error m => some (s.label ++ (": ").data ++ m)
    | .ok _ => none)

/-- The concatenated author lists of the succeeding author-search tasks. -/
def okAuthors (names : List Src) (outcome : Src → Except (List Char) (List Author)) :
    List Author :=
  (names.filterMap (fun s =>
    match outcome s with
    | .ok as' => some as'
    | .error _ => none)).flatten

/-- The sources `get_citations` dispatches to: the caller's list (or the
available sources by default) filtered through the credential chain. -/
def citationSources (cfg : OrchConfig) (sourcesOpt : Option (List Src)) : List Src :=
  Orchestrator.searchEligible cfg
    (match sourcesOpt with
     | none => Orchestrator.get_available_sources cfg
     | some ss => ss)

/-- The sources `get_references` dispatches to (no scopus branch). -/
def referenceSources (cfg : OrchConfig) (sourcesOpt : Option (List Src)) : List Src :=
  Orchestrator.refsEligible cfg
    (match sourcesOpt with
     | none => Orchestrator.get_available_sources cfg
     | some ss => ss)

/-- The per-source count an outcome contributes to `results_per_source`:
the record count on success, zero when the task raised. -/
def outcomeCount (outcome : Src → Except (List Char) (List Paper)) (s : Src) : Nat :=
  match outcome s with
  | .ok ps => ps.length
  | .error _ => 0

/-- Witness data: DOI pair with equal normalized DOIs but unrelated titles. -/
def pW1 : Paper := { doi := some (("10.1/X").data), title := ("totally different").data }

/-- Witness data: the same DOI as `pW1` up to case and surrounding blanks. -/
def pW2 : Paper := { doi := some ((" 10.1/x ").data), title := ("another thing").data }

/-- Witness data: DOI pair with identical titles but distinct DOIs. -/
def pW3 : Paper := { doi := some (("10.1/a").data), title := ("same title").data }

/-- Witness data: second record of the distinct-DOI, identical-title pair. -/
def pW4 : Paper := { doi := some (("10.1/b").data), title := ("same title").data }

/-- Counterexample data: a record carrying both a DOI and an S2 corpus id. -/
def pW5 : Paper := { doi := some (("10.1/d").data), s2_corpus_id := some 5 }

/-- Counterexample data: a DOI-less record sharing `pW5`'s S2 corpus id. -/
def pW6 : Paper := { s2_corpus_id := some 5 }

/-- Witness data: identifier-less record, fuzzy-matched by title. -/
def pF1 : Paper := { title := ("Glacier Mass Balance").data, year := some 2020 }

/-- Witness data: same title as `pF1` up to case/punctuation, adjacent year. -/
def pF2 : Paper := { title := ("glacier mass balance!").data, year := some 2021 }

/-- Witness data: title at similarity 0.80 against `pF4`, same year. -/
def pF3 : Paper := { title := ("abcde").data, year := some 2020 }

/-- Witness data: partner of `pF3` (ratio 2·4/(5+5) = 0.80). -/
def pF4 : Paper := { title := ("abcdx").data, year := some 2020 }

/-- Witness data: identical title to `pF1` but three years apart. -/
def pF5 : Paper := { title := ("glacier mass balance").data, year := some 2023 }

/-- Witness data: a configuration with every credential set. -/
def cfgFull : OrchConfig :=
  { openalex_mailto := some (("a@b").data), s2_api_key := some (("k").data),
    scopus_api_key := some (("k").data), scix_api_key := some (("k").data) }

/-- Witness data: all four sources requested. -/
def srcsAll : List Src := [Src.openalex, Src.semantic_scholar, Src.scopus, Src.scix]

/-- Witness data: the spec's partial-failure scenario — two of the four
sources raise a transient error, the other two succeed. -/
def outTwoFail : Src → Except (List Char) (List Paper)
  | Src.openalex => Except.error (("boom").data)
  | Src.scopus => Except.error (("boom2").data)
  | Src.semantic_scholar => Except.ok [{ doi := some (("x").data) }]
  | Src.scix => Except.ok [{ doi := some (("y").data) }]

/-! ## Group bookkeeping lemmas -/

theorem groupSizes_nil : groupSizes [] = 0 := rfl

theorem groupSizes_cons (e : List Char × List Paper) (gs : Groups) :
    groupSizes (e :: gs) = e.2.length + groupSizes gs := by
  simp [groupSizes]

theorem addToGroups_sizes (gs : Groups) (k : List Char) (p : Paper) :
    groupSizes (Deduplicator.addToGroups gs k p) = groupSizes gs + 1 := by
  induction gs with
  | nil => simp [Deduplicator.addToGroups, groupSizes]
  | cons e rest ih =>
    by_cases h : e.1 == k
    · simp [Deduplicator.addToGroups, h, groupSizes_cons]
      omega
    · simp [Deduplicator.addToGroups, h, groupSizes_cons, ih]
      omega

theorem addToGroups_ne_nil (k : List Char) (p : Paper) : ∀ (gs : Groups),
    (∀ e ∈ gs, e.2 ≠ []) → ∀ e ∈ Deduplicator.addToGroups gs k p, e.2 ≠ [] := by
  intro gs
  induction gs with
  | nil => intro _; simp [Deduplicator.addToGroups]
  | cons e rest ih =>
    intro h
    by_cases hk : e.1 == k
    · simp only [Deduplicator.addToGroups, hk, if_pos]
      intro e' he'
      rcases List.mem_cons.mp he' with h1 | h1
      · subst h1; simp
      · exact h e' (List.mem_cons_of_mem _ h1)
    · simp only [Deduplicator.addToGroups, hk, if_neg, Bool.false_eq_true,
        not_false_iff]
      intro e' he'
      rcases List.mem_cons.mp he' with h1 | h1
      · rw [h1]; exact h e (List.mem_cons_self _ _)
      · exact ih (fun x hx => h x (List.mem_cons_of_mem _ hx)) e' h1

theorem addToGroups_fst_of_mem (k : List Char) (p : Paper) : ∀ (gs : Groups),
    k ∈ gs.map Prod.fst →
    (Deduplicator.addToGroups gs k p).map Prod.fst = gs.map Prod.fst := by
  intro gs
  induction gs with
  | nil => intro h; simp at h
  | cons e rest ih =>
    intro h
    by_cases hk : e.1 == k
    · simp [Deduplicator.addToGroups, hk]
    · rw [List.map_cons] at h
      have hr : k ∈ rest.map Prod.fst := by
        rcases List.mem_cons.mp h with h1 | h1
        · exact absurd (beq_iff_eq.mpr h1.symm) (by simpa using hk)
        · exact h1
      simp [Deduplicator.addToGroups, hk, ih hr]

theorem addToGroups_fst_of_not_mem (k : List Char) (p : Paper) : ∀ (gs : Groups),
    k ∉ gs.map Prod.fst →
    (Deduplicator.addToGroups gs k p).map Prod.fst = gs.map Prod.fst ++ [k] := by
  intro gs
  induction gs with
  | nil => intro _; simp [Deduplicator.addToGroups]
  | cons e rest ih =>
    intro h
    have h1 : e.1 ≠ k := fun hc => h (by simp [hc])
    have h2 : k ∉ rest.map Prod.fst := fun hc => h (by simp [hc])
    have hk : (e.1 == k) = false := beq_eq_false_iff_ne.mpr h1
    simp [Deduplicator.addToGroups, hk, ih h2]

theorem addToGroups_nodup_keys (gs : Groups) (k : List Char) (p : Paper)
    (h : (gs.map Prod.fst).Nodup) :
    ((Deduplicator.addToGroups gs k p).map Prod.fst).Nodup := by
  by_cases hm : k ∈ gs.map Prod.fst
  · rw [addToGroups_fst_of_mem k p gs hm]; exact h
  · rw [addToGroups_fst_of_not_mem k p gs hm]
    simpa using List.Nodup.append h (List.nodup_singleton k) (by simpa using hm)

theorem placedIn_addToGroups_self (gs : Groups) (k : List Char) (p : Paper) :
    placedIn (Deduplicator.addToGroups gs k p) p := by
  induction gs with
  | nil => exact ⟨(k, [p]), by simp [Deduplicator.addToGroups]⟩
  | cons e rest ih =>
    by_cases hk : e.1 == k
    · exact ⟨(e.1, e.2 ++ [p]), by simp [Deduplicator.addToGroups, hk]⟩
    · rcases ih with ⟨e', he', hp⟩
      exact ⟨e', by simp [Deduplicator.addToGroups, hk, he'], hp⟩

theorem placedIn_addToGroups_mono (k : List Char) (p q : Paper) : ∀ (gs : Groups),
    placedIn gs q → placedIn (Deduplicator.addToGroups gs k p) q := by
  intro gs
  induction gs with
  | nil => intro h; rcases h with ⟨e, he, _⟩; simp at he
  | cons e rest ih =>
    intro h
    rcases h with ⟨e', he', hq⟩
    by_cases hk : e.1 == k
    · rcases List.mem_cons.mp he' with h1 | h1
      · exact ⟨(e.1, e.2 ++ [p]), by simp [Deduplicator.addToGroups, hk],
          by subst h1; simp [hq]⟩
      · exact ⟨e', by simp [Deduplicator.addToGroups, hk, h1], hq⟩
    · rcases List.mem_cons.mp he' with h1 | h1
      · exact ⟨e, by simp [Deduplicator.addToGroups, hk], by subst h1; exact hq⟩
      · rcases ih ⟨e', h1, hq⟩ with ⟨e'', he'', hq'⟩
        exact ⟨e'', by simp [Deduplicator.addToGroups, hk, he''], hq'⟩

theorem insertPaper_sizes (thr : ℚ) (gs : Groups) (p : Paper) :
    groupSizes (Deduplicator.insertPaper thr gs p) = groupSizes gs + 1 :=
  addToGroups_sizes _ _ _

theorem foldl_insertPaper_sizes (thr : ℚ) (ps : List Paper) (gs : Groups) :
    groupSizes (ps.foldl (Deduplicator.insertPaper thr) gs) =
      groupSizes gs + ps.length := by
  induction ps generalizing gs with
  | nil => simp
  | cons p rest ih =>
    simp only [List.foldl_cons, ih, insertPaper_sizes, List.length_cons]
    omega

theorem dedupGroups_sizes (thr : ℚ) (ps : List Paper) :
    groupSizes (Deduplicator.dedupGroups thr ps) = ps.length := by
  simpa [Deduplicator.dedupGroups, groupSizes_nil] using foldl_insertPaper_sizes thr ps []

theorem dedupGroups_ne_nil (thr : ℚ) (ps : List Paper) :
    ∀ e ∈ Deduplicator.dedupGroups thr ps, e.2 ≠ [] := by
  have main : ∀ (ps : List Paper) (gs : Groups), (∀ e ∈ gs, e.2 ≠ []) →
      ∀ e ∈ ps.foldl (Deduplicator.insertPaper thr) gs, e.2 ≠ [] := by
    intro ps
    induction ps with
    | nil => intro gs h; simpa using h
    | cons p rest ih =>
      intro gs h
      exact ih _ (addToGroups_ne_nil _ _ _ h)
  exact main ps [] (by simp)

theorem dedupGroups_nodup_keys (thr : ℚ) (ps : List Paper) :
    ((Deduplicator.dedupGroups thr ps).map Prod.fst).Nodup := by
  have main : ∀ (ps : List Paper) (gs : Groups), (gs.map Prod.fst).Nodup →
      ((ps.foldl (Deduplicator.insertPaper thr) gs).map Prod.fst).Nodup := by
    intro ps
    induction ps with
    | nil => intro gs h; simpa using h
    | cons p rest ih =>
      intro gs h
      exact ih _ (addToGroups_nodup_keys _ _ _ h)
  exact main ps [] (by simp)

theorem length_le_groupSizes : ∀ (gs : Groups), (∀ e ∈ gs, e.2 ≠ []) →
    gs.length ≤ groupSizes gs := by
  intro gs
  induction gs with
  | nil => intro _; simp
  | cons e rest ih =>
    intro h
    have h1 : 1 ≤ e.2.length :=
      List.length_pos.mpr (h e (List.mem_cons_self _ _))
    have h2 := ih (fun x hx => h x (List.mem_cons_of_mem _ hx))
    simp only [List.length_cons, groupSizes_cons]
    omega

/-! ## The DOI invariant: level-1 keys fully determine DOI grouping -/

theorem doiKey_inj {d1 d2 : List Char} (h : DoiKey d1 = DoiKey d2) : d1 = d2 :=
  List.append_cancel_left h

theorem doiTag_data : ("doi:").data = ['d', 'o', 'i', ':'] := rfl

theorem s2Tag_data : ("s2:").data = ['s', '2', ':'] := rfl

theorem oaTag_data : ("oa:").data = ['o', 'a', ':'] := rfl

theorem scopusTag_data : ("scopus:").data = ['s', 'c', 'o', 'p', 'u', 's', ':'] := rfl

theorem scixTag_data : ("scix:").data = ['s', 'c', 'i', 'x', ':'] := rfl

theorem titleTag_data : ("title:").data = ['t', 'i', 't', 'l', 'e', ':'] := rfl

theorem tag_ne_doiKey {c : Char} {cs x d : List Char} (hc : c ≠ 'd') :
    (c :: cs) ++ x ≠ DoiKey d := by
  intro h
  exact hc (by simpa [DoiKey, doiTag_data] using congrArg (fun l => l.headD ' ') h)

theorem canonical_ne_doiKey (p : Paper) (h : strTruthy p.doi = false) (d : List Char) :
    p.get_canonical_id ≠ DoiKey d := by
  unfold Paper.get_canonical_id
  rw [h]
  simp only [Bool.false_eq_true, if_false]
  by_cases h2 : intTruthy p.s2_corpus_id
  · rw [if_pos h2]; exact tag_ne_doiKey (by decide)
  · rw [if_neg h2]
    by_cases h3 : strTruthy p.openalex_id
    · rw [if_pos h3]; exact tag_ne_doiKey (by decide)
    · rw [if_neg h3]
      by_cases h4 : strTruthy p.scopus_eid
      · rw [if_pos h4]; exact tag_ne_doiKey (by decide)
      · rw [if_neg h4]
        by_cases h5 : strTruthy p.scix_bibcode
        · rw [if_pos h5]; exact tag_ne_doiKey (by decide)
        · rw [if_neg h5]
          rw [List.append_assoc, List.append_assoc]
          exact tag_ne_doiKey (by decide)

theorem mem_addToGroups_cases (k : List Char) (p : Paper) : ∀ (gs : Groups),
    ∀ e' ∈ Deduplicator.addToGroups gs k p,
      e' ∈ gs ∨ (∃ e ∈ gs, e.1 = k ∧ e' = (e.1, e.2 ++ [p])) ∨
        (e' = (k, [p]) ∧ k ∉ gs.map Prod.fst) := by
  intro gs
  induction gs with
  | nil =>
    intro e' he'
    simp [Deduplicator.addToGroups] at he'
    exact Or.inr (Or.inr ⟨he', by simp⟩)
  | cons e rest ih =>
    intro e' he'
    by_cases hk : e.1 == k
    · simp only [Deduplicator.addToGroups, hk, if_pos] at he'
      rcases List.mem_cons.mp he' with h1 | h1
      · exact Or.inr (Or.inl ⟨e, List.mem_cons_self _ _, beq_iff_eq.mp hk, h1⟩)
      · exact Or.inl (List.mem_cons_of_mem _ h1)
    · simp only [Deduplicator.addToGroups, hk, if_neg, Bool.false_eq_true,
        not_false_iff] at he'
      rcases List.mem_cons.mp he' with h1 | h1
      · exact Or.inl (by rw [h1]; exact List.mem_cons_self _ _)
      · rcases ih e' h1 with h2 | h2 | h2
        · exact Or.inl (List.mem_cons_of_mem _ h2)
        · rcases h2 with ⟨e0, he0, hk0, he'0⟩
          exact Or.inr (Or.inl ⟨e0, List.mem_cons_of_mem _ he0, hk0, he'0⟩)
        · refine Or.inr (Or.inr ⟨h2.1, ?_⟩)
          intro hc
          rw [List.map_cons] at hc
          rcases List.mem_cons.mp hc with h3 | h3
          · exact absurd (beq_iff_eq.mpr h3.symm) (by simpa using hk)
          · exact h2.2 h3

theorem addToGroups_of_not_mem (gs : Groups) (k : List Char) (p : Paper)
    (h : k ∉ gs.map Prod.fst) :
    Deduplicator.addToGroups gs k p = gs ++ [(k, [p])] := by
  induction gs with
  | nil => rfl
  | cons e rest ih =>
    have h1 : e.1 ≠ k := fun hc => h (by simp [hc])
    have h2 : k ∉ rest.map Prod.fst := fun hc => h (by simp [hc])
    have hk : (e.1 == k) = false := beq_eq_false_iff_ne.mpr h1
    simp [Deduplicator.addToGroups, hk, ih h2]

theorem get_dedup_key_doi (thr : ℚ) (p : Paper) (gs : Groups)
    (hd : strTruthy p.doi = true) (hinv : DoiInv gs) :
    Deduplicator.get_dedup_key thr p gs = DoiKey (Deduplicator.doiNorm p) := by
  unfold Deduplicator.get_dedup_key
  rw [hd]
  simp only [if_pos]
  rcases hf : gs.find? (fun e => e.2.any (fun q =>
      strTruthy q.doi && (pyStrip (pyLower (q.doi.getD [])) == Deduplicator.doiNorm p))) with
    _ | e
  · rw [hf]
    rfl
  · rw [hf]
    have hmem := List.mem_of_find?_eq_some hf
    have hpred := List.find?_some hf
    rcases List.any_eq_true.mp hpred with ⟨q, hq, hq2⟩
    simp only [Bool.and_eq_true, beq_iff_eq] at hq2
    have hq4 : Deduplicator.doiNorm q = Deduplicator.doiNorm p := hq2.2
    have hkey := hinv.1 e hmem q hq hq2.1
    show e.1 = DoiKey (Deduplicator.doiNorm p)
    rw [hkey, hq4]

theorem get_dedup_key_not_doi (thr : ℚ) (p : Paper) (gs : Groups)
    (hd : strTruthy p.doi = false) :
    Deduplicator.get_dedup_key thr p gs ∈ gs.map Prod.fst ∨
      ∀ d, Deduplicator.get_dedup_key thr p gs ≠ DoiKey d := by
  unfold Deduplicator.get_dedup_key
  rw [hd]
  simp only [Bool.false_eq_true, if_false]
  by_cases h2 : intTruthy p.s2_corpus_id
  · rw [if_pos h2]
    by_cases hin : gs.any (fun e => e.1 == (("s2:").data ++ intStr (p.s2_corpus_id.getD 0)))
    · rw [if_pos hin]
      rcases List.any_eq_true.mp hin with ⟨e, he, hk⟩
      exact Or.inl (by rw [← beq_iff_eq.mp hk]; exact List.mem_map_of_mem _ he)
    · rw [if_neg hin]
      rcases hf : gs.find? (fun e => e.2.any (fun q => q.s2_corpus_id == p.s2_corpus_id)) with
        _ | e
      · rw [hf]
        refine Or.inr (fun d => ?_)
        show ("s2:").data ++ intStr (p.s2_corpus_id.getD 0) ≠ DoiKey d
        rw [s2Tag_data]
        exact tag_ne_doiKey (by decide)
      · rw [hf]
        exact Or.inl (List.mem_map_of_mem _ (List.mem_of_find?_eq_some hf))
  · rw [if_neg h2]
    by_cases h3 : strTruthy p.openalex_id
    · rw [if_pos h3]
      by_cases hin : gs.any (fun e => e.1 == (("oa:").data ++ p.openalex_id.getD []))
      · rw [if_pos hin]
        rcases List.any_eq_true.mp hin with ⟨e, he, hk⟩
        exact Or.inl (by rw [← beq_iff_eq.mp hk]; exact List.mem_map_of_mem _ he)
      · rw [if_neg hin]
        rcases hf : gs.find? (fun e => e.2.any (fun q => q.openalex_id == p.openalex_id)) with
          _ | e
        · rw [hf]
          refine Or.inr (fun d => ?_)
          show ("oa:").data ++ p.openalex_id.getD [] ≠ DoiKey d
          rw [oaTag_data]
          exact tag_ne_doiKey (by decide)
        · rw [hf]
          exact Or.inl (List.mem_map_of_mem _ (List.mem_of_find?_eq_some hf))
    · rw [if_neg h3]
      rcases hf : gs.find? (fun e => e.2.any (fun q => Deduplicator.is_title_match thr p q)) with
        _ | e
      · rw [hf]
        exact Or.inr (fun d => canonical_ne_doiKey p hd d)
      · rw [hf]
        exact Or.inl (List.mem_map_of_mem _ (List.mem_of_find?_eq_some hf))

theorem insertPaper_DoiInv (thr : ℚ) (gs : Groups) (p : Paper) (h : DoiInv gs) :
    DoiInv (Deduplicator.insertPaper thr gs p) := by
  obtain ⟨hKey, hInhab, hNodup⟩ := h
  by_cases hd : strTruthy p.doi
  · have hkey := get_dedup_key_doi thr p gs hd ⟨hKey, hInhab, hNodup⟩
    unfold Deduplicator.insertPaper
    rw [hkey]
    refine ⟨?_, ?_, addToGroups_nodup_keys _ _ _ hNodup⟩
    · intro e' he' q hq hqd
      rcases mem_addToGroups_cases _ _ _ e' he' with h1 | h1 | h1
      · exact hKey e' h1 q hq hqd
      · rcases h1 with ⟨e, he, hek, rfl⟩
        rcases List.mem_append.mp hq with h2 | h2
        · exact hKey e he q h2 hqd
        · have hqp : q = p := by simpa using h2
          subst hqp
          exact hek
      · rcases h1 with ⟨rfl, _⟩
        have hqp : q = p := by simpa using hq
        subst hqp
        rfl
    · intro e' he' d hdd
      rcases mem_addToGroups_cases _ _ _ e' he' with h1 | h1 | h1
      · exact hInhab e' h1 d hdd
      · rcases h1 with ⟨e, he, hek, rfl⟩
        rcases hInhab e he d hdd with ⟨q, hq, ha, hb⟩
        exact ⟨q, List.mem_append.mpr (Or.inl hq), ha, hb⟩
      · rcases h1 with ⟨rfl, _⟩
        exact ⟨p, by simp, hd, doiKey_inj hdd⟩
  · have hd' : strTruthy p.doi = false := by simpa using hd
    unfold Deduplicator.insertPaper
    refine ⟨?_, ?_, addToGroups_nodup_keys _ _ _ hNodup⟩
    · intro e' he' q hq hqd
      rcases mem_addToGroups_cases _ _ _ e' he' with h1 | h1 | h1
      · exact hKey e' h1 q hq hqd
      · rcases h1 with ⟨e, he, hek, rfl⟩
        rcases List.mem_append.mp hq with h2 | h2
        · exact hKey e he q h2 hqd
        · have hqp : q = p := by simpa using h2
          subst hqp
          exact absurd hqd (by simp [hd'])
      · rcases h1 with ⟨rfl, _⟩
        have hqp : q = p := by simpa using hq
        subst hqp
        exact absurd hqd (by simp [hd'])
    · intro e' he' d hdd
      rcases mem_addToGroups_cases _ _ _ e' he' with h1 | h1 | h1
      · exact hInhab e' h1 d hdd
      · rcases h1 with ⟨e, he, hek, rfl⟩
        rcases hInhab e he d hdd with ⟨q, hq, ha, hb⟩
        exact ⟨q, List.mem_append.mpr (Or.inl hq), ha, hb⟩
      · rcases h1 with ⟨hre, hnot⟩
        rcases get_dedup_key_not_doi thr p gs hd' with hmem | hne
        · exact absurd hmem hnot
        · rw [hre] at hdd
          exact absurd hdd (hne d)

theorem dedupGroups_DoiInv (thr : ℚ) (ps : List Paper) :
    DoiInv (Deduplicator.dedupGroups thr ps) := by
  have main : ∀ (ps : List Paper) (gs : Groups), DoiInv gs →
      DoiInv (ps.foldl (Deduplicator.insertPaper thr) gs) := by
    intro ps
    induction ps with
    | nil => intro gs h; simpa using h
    | cons p rest ih =>
      intro gs h
      exact ih _ (insertPaper_DoiInv thr gs p h)
  exact main ps [] ⟨by simp, by simp, by simp⟩

theorem entry_eq_of_key : ∀ (gs : Groups), (gs.map Prod.fst).Nodup →
    ∀ e1 ∈ gs, ∀ e2 ∈ gs, e1.1 = e2.1 → e1 = e2 := by
  intro gs
  induction gs with
  | nil => intro _ e1 h1; simp at h1
  | cons e rest ih =>
    intro hnd e1 h1 e2 h2 hk
    rw [List.map_cons, List.nodup_cons] at hnd
    rcases List.mem_cons.mp h1 with g1 | g1 <;> rcases List.mem_cons.mp h2 with g2 | g2
    · rw [g1, g2]
    · exfalso
      apply hnd.1
      have hkk : e.1 = e2.1 := by rw [← g1]; exact hk
      rw [hkk]
      exact List.mem_map_of_mem _ g2
    · exfalso
      apply hnd.1
      have hkk : e.1 = e1.1 := by rw [← g2]; exact hk.symm
      rw [hkk]
      exact List.mem_map_of_mem _ g1
    · exact ih hnd.2 e1 g1 e2 g2 hk

theorem placedIn_foldl_mono (thr : ℚ) : ∀ (ps : List Paper) (gs : Groups) (q : Paper),
    placedIn gs q → placedIn (ps.foldl (Deduplicator.insertPaper thr) gs) q := by
  intro ps
  induction ps with
  | nil => intro gs q h; simpa using h
  | cons p rest ih =>
    intro gs q h
    exact ih _ q (placedIn_addToGroups_mono _ _ _ _ h)

theorem placedIn_dedupGroups (thr : ℚ) (ps : List Paper) (r : Paper) (h : r ∈ ps) :
    placedIn (Deduplicator.dedupGroups thr ps) r := by
  have main : ∀ (ps : List Paper) (gs : Groups) (r : Paper), r ∈ ps →
      placedIn (ps.foldl (Deduplicator.insertPaper thr) gs) r := by
    intro ps
    induction ps with
    | nil => intro gs r h; simp at h
    | cons p rest ih =>
      intro gs r h
      rcases List.mem_cons.mp h with h1 | h1
      · subst h1
        exact placedIn_foldl_mono thr rest _ r (placedIn_addToGroups_self _ _ _)
      · exact ih _ r h1
  exact main ps [] r h

/-- The central DOI-grouping fact: in the output groups of any input list, two
DOI-carrying records share a group exactly when their normalized DOIs agree. -/
theorem sameGroup_doi_iff (thr : ℚ) (ps : List Paper) (p1 p2 : Paper)
    (h1 : p1 ∈ ps) (h2 : p2 ∈ ps)
    (hd1 : strTruthy p1.doi = true) (hd2 : strTruthy p2.doi = true) :
    SameGroup (Deduplicator.dedupGroups thr ps) p1 p2 ↔
      Deduplicator.doiNorm p1 = Deduplicator.doiNorm p2 := by
  obtain ⟨hKey, hInhab, hNodup⟩ := dedupGroups_DoiInv thr ps
  constructor
  · rintro ⟨e, he, hm1, hm2⟩
    have k1 := hKey e he p1 hm1 hd1
    have k2 := hKey e he p2 hm2 hd2
    exact doiKey_inj (k1 ▸ k2)
  · intro heq
    rcases placedIn_dedupGroups thr ps p1 h1 with ⟨e1, he1, hm1⟩
    rcases placedIn_dedupGroups thr ps p2 h2 with ⟨e2, he2, hm2⟩
    have k1 := hKey e1 he1 p1 hm1 hd1
    have k2 := hKey e2 he2 p2 hm2 hd2
    have : e1 = e2 := entry_eq_of_key _ hNodup e1 he1 e2 he2 (by rw [k1, k2, heq])
    subst this
    exact ⟨e1, he1, hm1, hm2⟩

/-! ## Merge totality and deduplicate bookkeeping -/

theorem merge_isSome (g : List Paper) (h : g ≠ []) :
    (MetadataMerger.merge g).isSome := by
  match g with
  | [p] => rfl
  | p :: q :: rest => rfl

theorem mergeAll_isSome (gl : List (List Paper)) (h : ∀ g ∈ gl, g ≠ []) :
    (Deduplicator.mergeAll gl).isSome := by
  induction gl with
  | nil => rfl
  | cons g rest ih =>
    have h1 := merge_isSome g (h g (List.mem_cons_self _ _))
    have h2 := ih (fun x hx => h x (List.mem_cons_of_mem _ hx))
    rcases Option.isSome_iff_exists.mp h1 with ⟨m, hm⟩
    rcases Option.isSome_iff_exists.mp h2 with ⟨ms, hms⟩
    simp [Deduplicator.mergeAll, hm, hms]

theorem mergeAll_length (gl : List (List Paper)) (ms : List Paper)
    (h : Deduplicator.mergeAll gl = some ms) : ms.length = gl.length := by
  induction gl generalizing ms with
  | nil => simp [Deduplicator.mergeAll] at h; simp [← h]
  | cons g rest ih =>
    simp only [Deduplicator.mergeAll] at h
    rcases hm : MetadataMerger.merge g with _ | m <;> rw [hm] at h
    · exact absurd h (by simp)
    · rcases hms : Deduplicator.mergeAll rest with _ | ms' <;> rw [hms] at h
      · exact absurd h (by simp)
      · simp only [Option.some.injEq] at h
        simp [← h, ih ms' hms]

theorem deduplicate_isSome (thr : ℚ) (ps : List Paper) :
    (Deduplicator.deduplicate thr ps).isSome := by
  by_cases h : ps.isEmpty
  · simp [Deduplicator.deduplicate, h]
  · have h1 : ∀ g ∈ (Deduplicator.dedupGroups thr ps).map (·.2), g ≠ [] := by
      intro g hg
      rcases List.mem_map.mp hg with ⟨e, he, rfl⟩
      exact dedupGroups_ne_nil thr ps e he
    rcases Option.isSome_iff_exists.mp (mergeAll_isSome _ h1) with ⟨ms, hms⟩
    simp [Deduplicator.deduplicate, h, hms]

theorem deduplicate_bounds (thr : ℚ) (ps out : List Paper) (d : Nat)
    (h : Deduplicator.deduplicate thr ps = some (out, d)) :
    out.length ≤ ps.length ∧ d = ps.length - out.length := by
  by_cases he : ps.isEmpty
  · have hps : ps = [] := List.isEmpty_iff.mp he
    subst hps
    have h' : (([] : List Paper), (0 : Nat)) = (out, d) :=
      Option.some.inj (by simpa [Deduplicator.deduplicate] using h)
    have h1 : out = ([] : List Paper) := (congrArg Prod.fst h').symm
    have h2 : d = 0 := (congrArg Prod.snd h').symm
    subst h1; subst h2; simp
  · simp only [Deduplicator.deduplicate, he, if_neg, Bool.false_eq_true,
      not_false_iff] at h
    rcases hms : Deduplicator.mergeAll ((Deduplicator.dedupGroups thr ps).map (·.2)) with
      _ | ms <;> rw [hms] at h
    · exact absurd h (by simp)
    · simp only [Option.map_some', Option.some.injEq] at h
      have h1 : ms = out := congrArg Prod.fst h
      have h2 : ps.length - ms.length = d := congrArg Prod.snd h
      have hlen : ms.length = (Deduplicator.dedupGroups thr ps).length := by
        simpa using mergeAll_length _ _ hms
      have hle : (Deduplicator.dedupGroups thr ps).length ≤ ps.length := by
        calc (Deduplicator.dedupGroups thr ps).length
            ≤ groupSizes (Deduplicator.dedupGroups thr ps) :=
              length_le_groupSizes _ (dedupGroups_ne_nil thr ps)
          _ = ps.length := dedupGroups_sizes thr ps
      constructor
      · rw [← h1, hlen]; exact hle
      · rw [← h2, ← h1]

/-! ## Title-match evaluation lemmas -/

theorem normalize_title_nil (p : Paper) (h : p.title = []) :
    p.normalize_title = [] := by
  simp [Paper.normalize_title, h, pyLower, pyStrip]

theorem title_isEmpty_false (p : Paper) (h : p.normalize_title ≠ []) :
    p.title.isEmpty = false := by
  rcases ht : p.title with _ | ⟨c, cs⟩
  · exact absurd (normalize_title_nil p ht) h
  · rfl

theorem is_title_match_of (thr : ℚ) (p1 p2 : Paper)
    (hn1 : p1.normalize_title ≠ []) (hn2 : p2.normalize_title ≠ [])
    (hyear : intTruthy p1.year = true → intTruthy p2.year = true →
      (p1.year.getD 0 - p2.year.getD 0).natAbs ≤ 1)
    (hr : thr ≤ smRatio p1.normalize_title p2.normalize_title) :
    Deduplicator.is_title_match thr p1 p2 = true := by
  unfold Deduplicator.is_title_match
  rw [title_isEmpty_false p1 hn1, title_isEmpty_false p2 hn2]
  have hy : (intTruthy p1.year && intTruthy p2.year &&
      decide (1 < (p1.year.getD 0 - p2.year.getD 0).natAbs)) = false := by
    by_cases hy1 : intTruthy p1.year = true
    · by_cases hy2 : intTruthy p2.year = true
      · have := hyear hy1 hy2
        simp only [hy1, hy2, Bool.true_and]
        simpa using by omega
      · simp [Bool.eq_false_iff.mpr hy2]
    · simp [Bool.eq_false_iff.mpr hy1]
  rw [hy]
  have he1 : p1.normalize_title.isEmpty = false := by
    simpa [List.isEmpty_iff] using hn1
  have he2 : p2.normalize_title.isEmpty = false := by
    simpa [List.isEmpty_iff] using hn2
  simp only [Bool.or_self, Bool.false_eq_true, if_false, he1, he2]
  exact decide_eq_true hr

theorem is_title_match_false_of_ratio (thr : ℚ) (p1 p2 : Paper)
    (hr : smRatio p1.normalize_title p2.normalize_title < thr) :
    Deduplicator.is_title_match thr p1 p2 = false := by
  unfold Deduplicator.is_title_match
  split
  · rfl
  · split
    · rfl
    · simp only []
      split
      · rfl
      · exact decide_eq_false (not_le.mpr hr)

theorem is_title_match_false_of_year (thr : ℚ) (p1 p2 : Paper)
    (hy1 : intTruthy p1.year = true) (hy2 : intTruthy p2.year = true)
    (hgap : 1 < (p1.year.getD 0 - p2.year.getD 0).natAbs) :
    Deduplicator.is_title_match thr p1 p2 = false := by
  unfold Deduplicator.is_title_match
  split
  · rfl
  · have hc : (intTruthy p1.year && intTruthy p2.year &&
        decide (1 < (p1.year.getD 0 - p2.year.getD 0).natAbs)) = true := by
      rw [hy1, hy2]
      simpa using hgap
    rw [if_pos hc]

theorem get_dedup_key_idless (thr : ℚ) (p : Paper) (gs : Groups) (h : idLess p) :
    Deduplicator.get_dedup_key thr p gs =
      (match gs.find? (fun e => e.2.any (fun q =>
          Deduplicator.is_title_match thr p q)) with
        | some e => e.1
        | none => p.get_canonical_id) := by
  rcases h with ⟨h1, h2, h3⟩
  unfold Deduplicator.get_dedup_key
  rw [h1, h2, h3]
  rfl

theorem canonical_title_form (p : Paper) (h : idLess p)
    (h4 : strTruthy p.scopus_eid = false) (h5 : strTruthy p.scix_bibcode = false) :
    p.get_canonical_id = ("title:").data ++ p.normalize_title ++ (":").data ++
      intStr (if intTruthy p.year = true then p.year.getD 0 else 0) := by
  rcases h with ⟨h1, h2, h3⟩
  unfold Paper.get_canonical_id
  rw [h1, h2, h3, h4, h5]
  rfl

/-! ## Claim theorems -/

/-- C2 (counterexample): the claim's backoff formula is wrong on the code.
With `retry_after_429 = 60`, no prior failures, and a retry-after hint of 1
reported at time 0, the code sets the deadline to `0 + min(1, 300) = 1`,
whereas the claimed `now + min(max(h, base·2^(n+1)), 300)` would give
`0 + min(max(1, 120), 300) = 120`. -/
theorem report_429_hint_not_max :
    (RateLimiter.report_429 { requests_per_second := 1, retry_after_429 := 60 } 0 (some 1)
      { tokens := 1, last_update := 0, daily_count := 0, daily_reset := 0,
        consecutive_429s := 0, backoff_until := none }).backoff_until =
      some (0 + min 1 300) ∧
    (0 + min 1 300 : ℚ) ≠ 0 + min (max 1 (60 * 2 ^ (0 + 1))) 300 := by
  constructor
  · rfl
  · norm_num

/-- C2 (amended): `report_429` increments the consecutive-failure counter; a
truthy (non-zero) retry-after hint `h` sets the deadline to `now + min(h, 300)`
— the hint replaces the exponential term entirely instead of being combined
with `max` — while an absent or zero hint sets it to
`now + min(base · 2^(n+1), 300)` after `n` prior consecutive failures, so the
hint-free window is `base × 2` after the first failure and doubles on each
subsequent one, capped at 300 s. -/
theorem report_429_backoff_amended (cfg : RateLimitConfig) (now h : ℚ)
    (st : RateLimiterState) :
    (RateLimiter.report_429 cfg now (some h) st).consecutive_429s =
        st.consecutive_429s + 1 ∧
    (RateLimiter.report_429 cfg now none st).consecutive_429s =
        st.consecutive_429s + 1 ∧
    (h ≠ 0 →
      (RateLimiter.report_429 cfg now (some h) st).backoff_until =
        some (now + min h 300)) ∧
    (RateLimiter.report_429 cfg now none st).backoff_until =
      some (now + min (cfg.retry_after_429 * 2 ^ (st.consecutive_429s + 1)) 300) ∧
    (RateLimiter.report_429 cfg now (some 0) st).backoff_until =
      some (now + min (cfg.retry_after_429 * 2 ^ (st.consecutive_429s + 1)) 300) := by
  refine ⟨rfl, rfl, ?_, rfl, ?_⟩
  · intro hh
    have : (h != 0) = true := by simpa using hh
    simp [RateLimiter.report_429, this]
  · simp [RateLimiter.report_429]

/-- C2 (witness for the amended theorem): concrete instantiation at
`base = 60`, `now = 0`, `h = 7`, one prior failure. -/
theorem report_429_backoff_amended_witness :
    (RateLimiter.report_429 { requests_per_second := 1, retry_after_429 := 60 } 0 (some 7)
      { tokens := 1, last_update := 0, daily_count := 0, daily_reset := 0,
        consecutive_429s := 1, backoff_until := none }).backoff_until =
      some (0 + min 7 300) := by
  exact (report_429_backoff_amended { requests_per_second := 1, retry_after_429 := 60 } 0 7
    { tokens := 1, last_update := 0, daily_count := 0, daily_reset := 0,
      consecutive_429s := 1, backoff_until := none }).2.2.1 (by norm_num)

/-- C3 (counterexample): `merge` of the empty group does not yield an empty
result — it reaches Python's `max([])` and raises `ValueError`, embedded here
as `none`. -/
theorem merge_empty_raises : MetadataMerger.merge [] = none := rfl

/-- C3 (amended): deduplication is a pure total function — the empty input
yields the empty output with zero duplicates removed, and `deduplicate` never
raises for any input list (every group it builds is non-empty); `merge` never
raises for any *non-empty* input list, but the empty group makes it raise
rather than return an empty result. -/
theorem dedup_merge_totality_amended :
    (∀ thr : ℚ, Deduplicator.deduplicate thr [] = some ([], 0)) ∧
    (∀ (thr : ℚ) (ps : List Paper), (Deduplicator.deduplicate thr ps).isSome) ∧
    (∀ g : List Paper, g ≠ [] → (MetadataMerger.merge g).isSome) := by
  exact ⟨fun thr => rfl, fun thr ps => deduplicate_isSome thr ps, merge_isSome⟩

/-- C3 (witness): the amended theorem applied at a concrete non-empty group
and a concrete two-paper list. -/
theorem dedup_merge_totality_amended_witness :
    (MetadataMerger.merge [{ title := ("a").data }]).isSome ∧
    (Deduplicator.deduplicate (17 / 20)
      [{ doi := some (("x").data) }, { doi := some (("x").data) }]).isSome := by
  exact ⟨dedup_merge_totality_amended.2.2 [{ title := ("a").data }] (by simp),
    dedup_merge_totality_amended.2.1 (17 / 20)
      [{ doi := some (("x").data) }, { doi := some (("x").data) }]⟩

/-- C8 (confirmed): for every input list, the deduplicated output is no longer
than the input, and the reported `duplicates_removed` equals exactly the input
length minus the output length. -/
theorem deduplicate_counts (thr : ℚ) (ps out : List Paper) (d : Nat)
    (h : Deduplicator.deduplicate thr ps = some (out, d)) :
    out.length ≤ ps.length ∧ d = ps.length - out.length :=
  deduplicate_bounds thr ps out d h

/-- C8 (witness): the theorem applied at a concrete two-paper list whose
deduplication is evaluated explicitly. -/
theorem deduplicate_counts_witness :
    Deduplicator.deduplicate (17 / 20)
        [{ doi := some (("x").data) }, { doi := some (("y").data) }] =
      some ([{ doi := some (("x").data) }, { doi := some (("y").data) }], 0) ∧
    ([{ doi := some (("x").data) }, { doi := some (("y").data) }] :
        List Paper).length ≤ 2 ∧
    (0 : Nat) = 2 - ([{ doi := some (("x").data) },
        { doi := some (("y").data) }] : List Paper).length := by
  refine ⟨by decide, ?_, ?_⟩
  · exact (deduplicate_counts (17 / 20)
      [{ doi := some (("x").data) }, { doi := some (("y").data) }]
      [{ doi := some (("x").data) }, { doi := some (("y").data) }] 0 (by decide)).1
  · exact (deduplicate_counts (17 / 20)
      [{ doi := some (("x").data) }, { doi := some (("y").data) }]
      [{ doi := some (("x").data) }, { doi := some (("y").data) }] 0 (by decide)).2

theorem authorRuleA_false_of_digits (q : List Char) (hdig : pyIsDigit q = true) :
    authorRuleA q = false := by
  unfold authorRuleA
  rcases q with _ | ⟨c, rest⟩
  · simp [pyIsDigit] at hdig
  · by_cases hc : (("A").data).isPrefixOf (c :: rest)
    · have hcA : c = 'A' := by
        have : ('A' == c) = true := by
          simpa [List.isPrefixOf] using hc
        exact (beq_iff_eq.mp this).symm
      have hcd : c.isDigit = true := by
        unfold pyIsDigit at hdig
        simp only [Bool.and_eq_true, List.all_eq_true] at hdig
        exact hdig.2 c (List.mem_cons_self _ _)
      rw [hcA] at hcd
      exact absurd hcd (by decide)
    · simp [hc]

theorem authorRuleB_false_of_digits (q : List Char) (hdig : pyIsDigit q = true)
    (hlen : q.length = 7) : authorRuleB q = false := by
  unfold authorRuleB
  have horc : ((("0000-").data).isPrefixOf q) = false := by
    by_cases hp : (("0000-").data).isPrefixOf q
    · exfalso
      rcases (List.isPrefixOf_iff_prefix.mp hp) with ⟨t, ht⟩
      have hmem : '-' ∈ q := by
        rw [← ht]
        simp [(show ("0000-").data = ['0', '0', '0', '0', '-'] from rfl)]
      unfold pyIsDigit at hdig
      simp only [Bool.and_eq_true, List.all_eq_true] at hdig
      have := hdig.2 '-' hmem
      exact absurd this (by decide)
    · exact Bool.eq_false_iff.mpr hp
  have hurl : ((("https://orcid.org/").data).isPrefixOf q) = false := by
    by_cases hp : (("https://orcid.org/").data).isPrefixOf q
    · exfalso
      have hle := (List.isPrefixOf_iff_prefix.mp hp).length_le
      rw [hlen] at hle
      exact absurd hle (by decide)
    · exact Bool.eq_false_iff.mpr hp
  rw [horc, hurl]
  rfl

/-- C7 (confirmed): the classifier agrees with the spec's ordered rule list
(a: `A` marker + digits, length > 5; b: ORCID prefix or URL; c: all digits,
length > 5; d: all digits, length ≥ 10), classifying as an identifier lookup
exactly when some rule matches; `"A123456789"` and `"0000-0002-1825-0097"` are
identifier lookups, `"Jane Doe"` is a name search, and on any bare 7-digit
string rule (c) is the first rule to fire (before the redundant rule (d)). -/
theorem author_id_classifier :
    (∀ q : List Char,
      Orchestrator.is_author_id q = (authorIdFirstRule q).isSome) ∧
    Orchestrator.is_author_id (("A123456789").data) = true ∧
    Orchestrator.is_author_id (("0000-0002-1825-0097").data) = true ∧
    Orchestrator.is_author_id (("Jane Doe").data) = false ∧
    (∀ q : List Char, pyIsDigit q = true → q.length = 7 →
      authorIdFirstRule q = some 2 ∧ Orchestrator.is_author_id q = true) := by
  have hagree : ∀ q : List Char,
      Orchestrator.is_author_id q = (authorIdFirstRule q).isSome := by
    intro q
    show (if authorRuleA q then true
      else if authorRuleB q then true
      else if authorRuleC q then true
      else if authorRuleD q then true
      else false) = (authorIdFirstRule q).isSome
    unfold authorIdFirstRule
    rcases hA : authorRuleA q <;> rcases hB : authorRuleB q <;>
      rcases hC : authorRuleC q <;> rcases hD : authorRuleD q <;> simp [hA, hB, hC, hD]
  refine ⟨hagree, by decide, by decide, by decide, ?_⟩
  intro q hdig hlen
  have hA := authorRuleA_false_of_digits q hdig
  have hB := authorRuleB_false_of_digits q hdig hlen
  have hC : authorRuleC q = true := by
    unfold authorRuleC
    rw [hdig, hlen]
    rfl
  have hfr : authorIdFirstRule q = some 2 := by
    unfold authorIdFirstRule
    rw [hA, hB, hC]
    rfl
  exact ⟨hfr, by rw [hagree q, hfr]; rfl⟩

/-- C7 (witness): the classifier theorem applied to a concrete bare 7-digit
string, discharging its digit and length hypotheses. -/
theorem author_id_classifier_witness :
    authorIdFirstRule (("1234567").data) = some 2 ∧
    Orchestrator.is_author_id (("1234567").data) = true := by
  exact author_id_classifier.2.2.2.2 (("1234567").data) (by decide) (by decide)

/-- C10 (confirmed): a name search truncates the returned author list to
`limit`, but `total_results` and `duplicates_removed` are computed over the
full ORCID-deduplicated list before truncation — at the concrete input below
`total_results = 2` while only one author is returned. -/
theorem author_search_truncation :
    (∀ (cfg : OrchConfig) (outcome : Src → Except (List Char) (List Author))
        (limit : Nat) (md0 : Metadata),
      (Orchestrator.search_authors_by_name cfg outcome limit md0).1 =
        (Orchestrator.deduplicate_authors
          (Orchestrator.collectAuthors
            ((Orchestrator.authorNameSources cfg).map
              (fun s => (s, outcome s)))).1).take limit ∧
      (Orchestrator.search_authors_by_name cfg outcome limit md0).2.total_results =
        some (Orchestrator.deduplicate_authors
          (Orchestrator.collectAuthors
            ((Orchestrator.authorNameSources cfg).map
              (fun s => (s, outcome s)))).1).length ∧
      (Orchestrator.search_authors_by_name cfg outcome limit md0).2.duplicates_removed =
        some ((Orchestrator.collectAuthors
            ((Orchestrator.authorNameSources cfg).map
              (fun s => (s, outcome s)))).1.length -
          (Orchestrator.deduplicate_authors
            (Orchestrator.collectAuthors
              ((Orchestrator.authorNameSources cfg).map
                (fun s => (s, outcome s)))).1).length) ∧
      (Orchestrator.search_authors_by_name cfg outcome limit md0).1.length ≤ limit) ∧
    (Orchestrator.search_authors_by_name {}
        (fun _ => Except.ok [{ name := ("J").data }, { name := ("K").data }]) 1
        {}).2.total_results = some 2 ∧
    (Orchestrator.search_authors_by_name {}
        (fun _ => Except.ok [{ name := ("J").data }, { name := ("K").data }]) 1
        {}).1.length = 1 := by
  refine ⟨?_, by decide, by decide⟩
  intro cfg outcome limit md0
  refine ⟨rfl, rfl, rfl, ?_⟩
  simp [Orchestrator.search_authors_by_name, List.length_take]

theorem collectSearch_go :
    ∀ (rs : List (Src × Except (List Char) (List Paper)))
      (acc : List Paper × List (Src × Nat) × List (List Char)),
      (rs.foldl (fun acc r =>
        match r.2 with
        | .ok ps => (acc.1 ++ ps, Orchestrator.rpsSet acc.2.1 r.1 ps.length, acc.2.2)
        | .error m =>
          (acc.1, Orchestrator.rpsSet acc.2.1 r.1 0,
            acc.2.2 ++ [r.1.label ++ (": ").data ++ m])) acc).1 =
          acc.1 ++ (rs.filterMap (fun r =>
            match r.2 with
            | .ok ps => some ps
            | .error _ => none)).flatten ∧
      (rs.foldl (fun acc r =>
        match r.2 with
        | .ok ps => (acc.1 ++ ps, Orchestrator.rpsSet acc.2.1 r.1 ps.length, acc.2.2)
        | .error m =>
          (acc.1, Orchestrator.rpsSet acc.2.1 r.1 0,
            acc.2.2 ++ [r.1.label ++ (": ").data ++ m])) acc).2.2 =
          acc.2.2 ++ rs.filterMap (fun r =>
            match r.2 with
            | .error m => some (r.1.label ++ (": ").data ++ m)
            | .ok _ => none) := by
  intro rs
  induction rs with
  | nil => intro acc; simp
  | cons r rest ih =>
    intro acc
    rcases r with ⟨s, res⟩
    rcases res with m | ps
    · rcases ih (acc.1, Orchestrator.rpsSet acc.2.1 s 0,
        acc.2.2 ++ [s.label ++ (": ").data ++ m]) with ⟨ih1, ih2⟩
      constructor
      · simpa using ih1
      · simp only [List.foldl_cons] at *
        rw [ih2]
        simp
    · rcases ih (acc.1 ++ ps, Orchestrator.rpsSet acc.2.1 s ps.length, acc.2.2) with
        ⟨ih1, ih2⟩
      constructor
      · simp only [List.foldl_cons] at *
        rw [ih1]
        simp
      · simpa using ih2

theorem collectSearch_fst (names : List Src)
    (outcome : Src → Except (List Char) (List Paper)) :
    (Orchestrator.collectSearch (names.map (fun s => (s, outcome s)))).1 =
      okPapers names outcome := by
  have h := (collectSearch_go (names.map (fun s => (s, outcome s))) ([], [], [])).1
  unfold Orchestrator.collectSearch okPapers
  rw [h]
  rw [List.filterMap_map]
  rfl

theorem collectSearch_errs (names : List Src)
    (outcome : Src → Except (List Char) (List Paper)) :
    (Orchestrator.collectSearch (names.map (fun s => (s, outcome s)))).2.2 =
      failMsgs names outcome := by
  have h := (collectSearch_go (names.map (fun s => (s, outcome s))) ([], [], [])).2
  unfold Orchestrator.collectSearch failMsgs
  rw [h]
  rw [List.filterMap_map]
  rfl

theorem rpsSet_find_self (rps : List (Src × Nat)) (s : Src) (n : Nat) :
    (Orchestrator.rpsSet rps s n).find? (fun e => e.1 == s) = some (s, n) := by
  induction rps with
  | nil => simp [Orchestrator.rpsSet]
  | cons e rest ih =>
    by_cases hk : e.1 == s
    · have he : e.1 = s := beq_iff_eq.mp hk
      simp [Orchestrator.rpsSet, hk, List.find?, he]
    · simp only [Orchestrator.rpsSet, hk, Bool.false_eq_true, if_false]
      rw [List.find?_cons_of_neg _ (by simpa using hk)]
      exact ih

theorem rpsSet_find_other (rps : List (Src × Nat)) (s s' : Src) (n : Nat)
    (h : s' ≠ s) :
    (Orchestrator.rpsSet rps s n).find? (fun e => e.1 == s') =
      rps.find? (fun e => e.1 == s') := by
  induction rps with
  | nil =>
    simp [Orchestrator.rpsSet, List.find?, beq_eq_false_iff_ne.mpr (Ne.symm h)]
  | cons e rest ih =>
    by_cases hk : e.1 == s
    · have he : e.1 = s := beq_iff_eq.mp hk
      have hne : (e.1 == s') = false := beq_eq_false_iff_ne.mpr (by rw [he]; exact h.symm)
      simp only [Orchestrator.rpsSet, hk, if_true]
      rw [List.find?_cons_of_neg _ (by simp [hne]),
        List.find?_cons_of_neg _ (by simp [hne])]
    · simp only [Orchestrator.rpsSet, hk, Bool.false_eq_true, if_false]
      by_cases hp : (e.1 == s') = true
      · rw [List.find?_cons_of_pos _ (by simpa using hp),
          List.find?_cons_of_pos _ (by simpa using hp)]
      · rw [List.find?_cons_of_neg _ (by simpa using hp),
          List.find?_cons_of_neg _ (by simpa using hp)]
        exact ih

theorem collectPlain_go_stable (outcome : Src → Except (List Char) (List Paper)) :
    ∀ (names : List Src) (acc : List Paper × List (Src × Nat)) (s : Src),
      s ∉ names →
      ((names.map (fun s => (s, outcome s))).foldl (fun acc r =>
        match r.2 with
        | .ok ps => (acc.1 ++ ps, Orchestrator.rpsSet acc.2 r.1 ps.length)
        | .error _ => (acc.1, Orchestrator.rpsSet acc.2 r.1 0)) acc).2.find?
          (fun e => e.1 == s) =
        acc.2.find? (fun e => e.1 == s) := by
  intro names
  induction names with
  | nil => intro acc s _; rfl
  | cons s0 rest ih =>
    intro acc s hs
    have hs1 : s ≠ s0 := fun hc => hs (by rw [hc]; exact List.mem_cons_self _ _)
    have hs2 : s ∉ rest := fun hc => hs (List.mem_cons_of_mem _ hc)
    rw [List.map_cons, List.foldl_cons]
    rcases ho : outcome s0 with m | ps
    · simp only [ho]
      rw [ih _ s hs2]
      exact rpsSet_find_other acc.2 s0 s 0 hs1
    · simp only [ho]
      rw [ih _ s hs2]
      exact rpsSet_find_other acc.2 s0 s ps.length hs1

theorem collectPlain_go_count (outcome : Src → Except (List Char) (List Paper)) :
    ∀ (names : List Src) (acc : List Paper × List (Src × Nat)) (s : Src),
      s ∈ names →
      ((names.map (fun s => (s, outcome s))).foldl (fun acc r =>
        match r.2 with
        | .ok ps => (acc.1 ++ ps, Orchestrator.rpsSet acc.2 r.1 ps.length)
        | .error _ => (acc.1, Orchestrator.rpsSet acc.2 r.1 0)) acc).2.find?
          (fun e => e.1 == s) =
        some (s, outcomeCount outcome s) := by
  intro names
  induction names with
  | nil => intro acc s hs; simp at hs
  | cons s0 rest ih =>
    intro acc s hs
    by_cases hr : s ∈ rest
    · rw [List.map_cons, List.foldl_cons]
      exact ih _ s hr
    · have hs0 : s = s0 := by
        rcases List.mem_cons.mp hs with h | h
        · exact h
        · exact absurd h hr
      subst hs0
      rw [List.map_cons, List.foldl_cons]
      rcases ho : outcome s with m | ps
    -- the later folds never touch this source's entry again
      · simp only [ho]
        rw [collectPlain_go_stable outcome rest _ s hr]
        rw [rpsSet_find_self]
        simp [outcomeCount, ho]
      · simp only [ho]
        rw [collectPlain_go_stable outcome rest _ s hr]
        rw [rpsSet_find_self]
        simp [outcomeCount, ho]

theorem collectPlain_rps_count (names : List Src)
    (outcome : Src → Except (List Char) (List Paper)) (s : Src) (hs : s ∈ names) :
    (Orchestrator.collectPlain (names.map (fun s => (s, outcome s)))).2.find?
        (fun e => e.1 == s) = some (s, outcomeCount outcome s) :=
  collectPlain_go_count outcome names ([], []) s hs

theorem search_eq (cfg : OrchConfig) (thr : ℚ) (sources : List Src)
    (outcome : Src → Except (List Char) (List Paper)) (dedup : Bool)
    (hne : sources.isEmpty = false) :
    Orchestrator.search cfg thr (some sources) outcome dedup =
      (let names := Orchestrator.searchEligible cfg sources
       let c := Orchestrator.collectSearch (names.map (fun s => (s, outcome s)))
       let md0 : Metadata :=
         { sources_queried := some names, results_per_source := some c.2.1,
           errors := some c.2.2 }
       if dedup && !c.1.isEmpty then
         match Deduplicator.deduplicate thr c.1 with
         | none => none
         | some r =>
           some (r.1, { md0 with total_before_dedup := some (c.1.length),
                                 duplicates_removed := some r.2,
                                 total_results := some (r.1.length) })
       else some (c.1, { md0 with total_results := some (c.1.length) })) := by
  unfold Orchestrator.search
  rw [if_neg (by simp [hne])]

/-- C4 (confirmed): when some of the requested sources' tasks raise, `search`
still returns normally (never `none`): its error list names exactly the
dispatched sources whose task raised (in dispatch order, as
`"name: message"`), and the returned records are exactly the (optionally
deduplicated) concatenation of the succeeding sources' records. -/
theorem search_partial_failure (cfg : OrchConfig) (thr : ℚ) (sources : List Src)
    (outcome : Src → Except (List Char) (List Paper)) (dedup : Bool)
    (hne : sources ≠ []) :
    ∃ papers md,
      Orchestrator.search cfg thr (some sources) outcome dedup =
        some (papers, md) ∧
      md.errors =
        some (failMsgs (Orchestrator.searchEligible cfg sources) outcome) ∧
      ((dedup = true ∧
          okPapers (Orchestrator.searchEligible cfg sources) outcome ≠ [] ∧
          ∃ d, Deduplicator.deduplicate thr
            (okPapers (Orchestrator.searchEligible cfg sources) outcome) =
              some (papers, d)) ∨
        ((dedup = false ∨
            okPapers (Orchestrator.searchEligible cfg sources) outcome = []) ∧
          papers = okPapers (Orchestrator.searchEligible cfg sources) outcome)) := by
  have hie : sources.isEmpty = false := by
    rcases sources with _ | ⟨s, ss⟩
    · exact absurd rfl hne
    · rfl
  have hfst := collectSearch_fst (Orchestrator.searchEligible cfg sources) outcome
  have herr := collectSearch_errs (Orchestrator.searchEligible cfg sources) outcome
  rw [search_eq cfg thr sources outcome dedup hie]
  simp only []
  by_cases hdd : (dedup && !(Orchestrator.collectSearch
      ((Orchestrator.searchEligible cfg sources).map
        (fun s => (s, outcome s)))).1.isEmpty) = true
  · rw [if_pos hdd]
    have hdd2 : dedup = true ∧ (Orchestrator.collectSearch
        ((Orchestrator.searchEligible cfg sources).map
          (fun s => (s, outcome s)))).1 ≠ [] := by
      simpa [List.isEmpty_iff] using hdd
    rcases hdd2 with ⟨hd1, hd2⟩
    have hok : okPapers (Orchestrator.searchEligible cfg sources) outcome ≠ [] := by
      rw [← hfst]
      exact hd2
    rcases Option.isSome_iff_exists.mp (deduplicate_isSome thr
      (Orchestrator.collectSearch ((Orchestrator.searchEligible cfg sources).map
        (fun s => (s, outcome s)))).1) with ⟨r, hr⟩
    rw [hr]
    refine ⟨r.1, _, rfl, by simpa using herr, Or.inl ⟨hd1, hok, r.2, ?_⟩⟩
    rw [← hfst]
    rcases r with ⟨rp, rd⟩
    exact hr
  · rw [if_neg hdd]
    refine ⟨_, _, rfl, by simpa using herr, Or.inr ⟨?_, hfst⟩⟩
    have hdd2 : ¬(dedup = true ∧ (Orchestrator.collectSearch
        ((Orchestrator.searchEligible cfg sources).map
          (fun s => (s, outcome s)))).1 ≠ []) := by
      simpa [List.isEmpty_iff] using hdd
    rcases not_and_or.mp hdd2 with h1 | h1
    · exact Or.inl (by simpa using h1)
    · right
      rw [← hfst]
      simpa using h1

/-- C4 (witness): the spec's scenario — four configured sources of which
openalex and scopus raise — applied to the theorem; the error list evaluates
to exactly the two failing sources' messages. -/
theorem search_partial_failure_witness :
    (∃ papers md,
      Orchestrator.search cfgFull (17 / 20) (some srcsAll) outTwoFail true =
        some (papers, md) ∧
      md.errors = some (failMsgs (Orchestrator.searchEligible cfgFull srcsAll)
        outTwoFail)) ∧
    failMsgs (Orchestrator.searchEligible cfgFull srcsAll) outTwoFail =
      [("openalex: boom").data, ("scopus: boom2").data] ∧
    okPapers (Orchestrator.searchEligible cfgFull srcsAll) outTwoFail =
      [{ doi := some (("x").data) }, { doi := some (("y").data) }] := by
  refine ⟨?_, by decide, by decide⟩
  rcases search_partial_failure cfgFull (17 / 20) srcsAll outTwoFail true
    (by decide) with ⟨p, m, h1, h2, h3⟩
  exact ⟨p, m, h1, h2⟩

/-- C1 (counterexample): `get_citations` metadata never carries an error list;
at this concrete input the returned metadata's `errors` key is absent even
though the claim requires it to be always present. -/
theorem get_citations_metadata_lacks_errors :
    Orchestrator.get_citations {} (17 / 20) none (fun _ => Except.ok []) =
      some ([], { sources_queried := some [Src.semantic_scholar],
                  results_per_source := some [(Src.semantic_scholar, 0)],
                  total_results := some 0, duplicates_removed := some 0 }) ∧
    ({ sources_queried := some [Src.semantic_scholar],
       results_per_source := some [(Src.semantic_scholar, 0)],
       total_results := some 0, duplicates_removed := some 0 } : Metadata).errors =
      none := by
  exact ⟨by decide, rfl⟩

/-- C1 (amended): the metadata keys are operation-specific.  `search` (with a
non-empty requested source list) always reports sources queried, per-source
counts, an error list and the total, plus pre-dedup total and
duplicates-removed exactly when deduplication ran; `get_citations` and
`get_references` always report sources queried, per-source counts, total and
duplicates-removed but never an error list nor a pre-dedup total — a
dispatched source whose task raised appears in the per-source counts with
count zero; `get_author` always reports query, query type, sources queried,
per-source counts and the total, never an error list, and duplicates-removed
exactly for name searches; `search` with an empty valid-source list returns a
bare error-marker metadata carrying none of the other keys. -/
theorem orchestrator_metadata_keys_amended :
    (∀ (cfg : OrchConfig) (thr : ℚ) (sources : List Src)
        (outcome : Src → Except (List Char) (List Paper)) (dedup : Bool),
      sources ≠ [] →
      ∃ papers md,
        Orchestrator.search cfg thr (some sources) outcome dedup =
          some (papers, md) ∧
        md.sources_queried.isSome ∧ md.results_per_source.isSome ∧
        md.errors.isSome ∧ md.total_results.isSome ∧
        (md.total_before_dedup.isSome ↔ (dedup = true ∧
          okPapers (Orchestrator.searchEligible cfg sources) outcome ≠ [])) ∧
        (md.duplicates_removed.isSome ↔ (dedup = true ∧
          okPapers (Orchestrator.searchEligible cfg sources) outcome ≠ []))) ∧
    (∀ (cfg : OrchConfig) (thr : ℚ) (sourcesOpt : Option (List Src))
        (outcome : Src → Except (List Char) (List Paper)),
      ∃ papers md,
        Orchestrator.get_citations cfg thr sourcesOpt outcome =
          some (papers, md) ∧
        md.sources_queried.isSome ∧ md.results_per_source.isSome ∧
        md.total_results.isSome ∧ md.duplicates_removed.isSome ∧
        md.errors = none ∧ md.total_before_dedup = none ∧
        md.results_per_source = some ((Orchestrator.collectPlain
          ((citationSources cfg sourcesOpt).map (fun s => (s, outcome s)))).2) ∧
        (∀ s ∈ citationSources cfg sourcesOpt, ∀ m, outcome s = Except.error m →
          ((Orchestrator.collectPlain ((citationSources cfg sourcesOpt).map
            (fun s => (s, outcome s)))).2).find? (fun e => e.1 == s) =
              some (s, 0))) ∧
    (∀ (cfg : OrchConfig) (thr : ℚ) (sourcesOpt : Option (List Src))
        (outcome : Src → Except (List Char) (List Paper)),
      ∃ papers md,
        Orchestrator.get_references cfg thr sourcesOpt outcome =
          some (papers, md) ∧
        md.sources_queried.isSome ∧ md.results_per_source.isSome ∧
        md.total_results.isSome ∧ md.duplicates_removed.isSome ∧
        md.errors = none ∧ md.total_before_dedup = none ∧
        md.results_per_source = some ((Orchestrator.collectPlain
          ((referenceSources cfg sourcesOpt).map (fun s => (s, outcome s)))).2) ∧
        (∀ s ∈ referenceSources cfg sourcesOpt, ∀ m, outcome s = Except.error m →
          ((Orchestrator.collectPlain ((referenceSources cfg sourcesOpt).map
            (fun s => (s, outcome s)))).2).find? (fun e => e.1 == s) =
              some (s, 0))) ∧
    (∀ (cfg : OrchConfig) (q : List Char)
        (oi : Src → Except (List Char) (Option Author))
        (on' : Src → Except (List Char) (List Author)) (limit : Nat),
      (Orchestrator.get_author cfg q oi on' limit).2.query.isSome ∧
      (Orchestrator.get_author cfg q oi on' limit).2.query_type.isSome ∧
      (Orchestrator.get_author cfg q oi on' limit).2.sources_queried.isSome ∧
      (Orchestrator.get_author cfg q oi on' limit).2.results_per_source.isSome ∧
      (Orchestrator.get_author cfg q oi on' limit).2.total_results.isSome ∧
      (Orchestrator.get_author cfg q oi on' limit).2.errors = none ∧
      (Orchestrator.is_author_id q = false →
        (Orchestrator.get_author cfg q oi on' limit).2.duplicates_removed.isSome) ∧
      (Orchestrator.is_author_id q = true →
        (Orchestrator.get_author cfg q oi on' limit).2.duplicates_removed = none)) ∧
    (∀ (cfg : OrchConfig) (thr : ℚ)
        (outcome : Src → Except (List Char) (List Paper)) (dedup : Bool),
      Orchestrator.search cfg thr (some []) outcome dedup =
        some ([], { errorMsg := some (("Aucune source disponible").data) }) ∧
      ({ errorMsg := some (("Aucune source disponible").data) } :
        Metadata).sources_queried = none ∧
      ({ errorMsg := some (("Aucune source disponible").data) } :
        Metadata).results_per_source = none ∧
      ({ errorMsg := some (("Aucune source disponible").data) } :
        Metadata).errors = none ∧
      ({ errorMsg := some (("Aucune source disponible").data) } :
        Metadata).total_results = none ∧
      ({ errorMsg := some (("Aucune source disponible").data) } :
        Metadata).duplicates_removed = none ∧
      ({ errorMsg := some (("Aucune source disponible").data) } :
        Metadata).total_before_dedup = none) := by
  refine ⟨?_, ?_, ?_, ?_, ?_⟩
  · intro cfg thr sources outcome dedup hne
    have hie : sources.isEmpty = false := by
      rcases sources with _ | ⟨s, ss⟩
      · exact absurd rfl hne
      · rfl
    have hfst := collectSearch_fst (Orchestrator.searchEligible cfg sources) outcome
    rw [search_eq cfg thr sources outcome dedup hie]
    simp only []
    by_cases hdd : (dedup && !(Orchestrator.collectSearch
        ((Orchestrator.searchEligible cfg sources).map
          (fun s => (s, outcome s)))).1.isEmpty) = true
    · rw [if_pos hdd]
      have hdd2 : dedup = true ∧
          okPapers (Orchestrator.searchEligible cfg sources) outcome ≠ [] := by
        rw [← hfst]
        simpa [List.isEmpty_iff] using hdd
      rcases Option.isSome_iff_exists.mp (deduplicate_isSome thr
        (Orchestrator.collectSearch ((Orchestrator.searchEligible cfg sources).map
          (fun s => (s, outcome s)))).1) with ⟨r, hr⟩
      rw [hr]
      exact ⟨r.1, _, rfl, rfl, rfl, rfl, rfl,
        by simpa using hdd2, by simpa using hdd2⟩
    · rw [if_neg hdd]
      have hdd2 : ¬(dedup = true ∧
          okPapers (Orchestrator.searchEligible cfg sources) outcome ≠ []) := by
        rw [← hfst]
        simpa [List.isEmpty_iff] using hdd
      exact ⟨_, _, rfl, rfl, rfl, rfl, rfl,
        by simpa using hdd2, by simpa using hdd2⟩
  · intro cfg thr sourcesOpt outcome
    rcases Option.isSome_iff_exists.mp (deduplicate_isSome thr
      (Orchestrator.collectPlain ((Orchestrator.searchEligible cfg
        (match sourcesOpt with
         | none => Orchestrator.get_available_sources cfg
         | some ss => ss)).map (fun s => (s, outcome s)))).1) with ⟨r, hr⟩
    unfold Orchestrator.get_citations
    simp only []
    rw [hr]
    refine ⟨r.1, _, rfl, rfl, rfl, rfl, rfl, rfl, rfl, rfl, ?_⟩
    intro s hs m hm
    rw [collectPlain_rps_count (citationSources cfg sourcesOpt) outcome s hs]
    simp [outcomeCount, hm]
  · intro cfg thr sourcesOpt outcome
    rcases Option.isSome_iff_exists.mp (deduplicate_isSome thr
      (Orchestrator.collectPlain ((Orchestrator.refsEligible cfg
        (match sourcesOpt with
         | none => Orchestrator.get_available_sources cfg
         | some ss => ss)).map (fun s => (s, outcome s)))).1) with ⟨r, hr⟩
    unfold Orchestrator.get_references
    simp only []
    rw [hr]
    refine ⟨r.1, _, rfl, rfl, rfl, rfl, rfl, rfl, rfl, rfl, ?_⟩
    intro s hs m hm
    rw [collectPlain_rps_count (referenceSources cfg sourcesOpt) outcome s hs]
    simp [outcomeCount, hm]
  · intro cfg q oi on' limit
    unfold Orchestrator.get_author
    by_cases hq : Orchestrator.is_author_id q = true
    · rw [if_pos hq]
      exact ⟨rfl, rfl, rfl, rfl, rfl, rfl, fun hc => absurd hq (by simp [hc]),
        fun _ => rfl⟩
    · rw [if_neg hq]
      exact ⟨rfl, rfl, rfl, rfl, rfl, rfl, fun _ => rfl,
        fun hc => absurd hc hq⟩
  · intro cfg thr outcome dedup
    exact ⟨rfl, rfl, rfl, rfl, rfl, rfl, rfl⟩

/-- C1 (witness for the amended theorem): each operation's clause applied at a
concrete input, discharging the non-empty-sources, membership, failing-outcome
and classifier hypotheses; the no-valid-source clause and the zero-count for a
failing `get_citations` source are exercised concretely. -/
theorem orchestrator_metadata_keys_amended_witness :
    (∃ papers md,
      Orchestrator.search {} (17 / 20) (some [Src.semantic_scholar])
        (fun _ => Except.ok []) true = some (papers, md) ∧ md.errors.isSome) ∧
    (∃ papers md,
      Orchestrator.get_citations {} (17 / 20) none (fun _ => Except.ok []) =
        some (papers, md) ∧ md.duplicates_removed.isSome) ∧
    (∃ papers md,
      Orchestrator.get_references {} (17 / 20) none (fun _ => Except.ok []) =
        some (papers, md) ∧ md.duplicates_removed.isSome) ∧
    (Orchestrator.get_author {} (("Jane Doe").data) (fun _ => Except.ok none)
      (fun _ => Except.ok []) 10).2.duplicates_removed.isSome ∧
    Orchestrator.search {} (17 / 20) (some []) (fun _ => Except.ok []) true =
      some ([], { errorMsg := some (("Aucune source disponible").data) }) ∧
    ((Orchestrator.collectPlain ((citationSources {} none).map
        (fun s => (s, (fun _ => (Except.error (("boom").data) :
          Except (List Char) (List Paper))) s)))).2).find?
      (fun e => e.1 == Src.semantic_scholar) = some (Src.semantic_scholar, 0) := by
  refine ⟨?_, ?_, ?_, ?_, ?_, ?_⟩
  · rcases orchestrator_metadata_keys_amended.1 {} (17 / 20) [Src.semantic_scholar]
      (fun _ => Except.ok []) true (by decide) with ⟨p, m, h1, _, _, h4, _, _, _⟩
    exact ⟨p, m, h1, h4⟩
  · rcases orchestrator_metadata_keys_amended.2.1 {} (17 / 20) none
      (fun _ => Except.ok []) with ⟨p, m, h1, _, _, _, h5, _, _, _, _⟩
    exact ⟨p, m, h1, h5⟩
  · rcases orchestrator_metadata_keys_amended.2.2.1 {} (17 / 20) none
      (fun _ => Except.ok []) with ⟨p, m, h1, _, _, _, h5, _, _, _, _⟩
    exact ⟨p, m, h1, h5⟩
  · exact (orchestrator_metadata_keys_amended.2.2.2.1 {} (("Jane Doe").data)
      (fun _ => Except.ok none) (fun _ => Except.ok []) 10).2.2.2.2.2.2.1 (by decide)
  · exact (orchestrator_metadata_keys_amended.2.2.2.2 {} (17 / 20)
      (fun _ => Except.ok []) true).1
  · rcases orchestrator_metadata_keys_amended.2.1 {} (17 / 20) none
      (fun _ => Except.error (("boom").data)) with
      ⟨p, m, _, _, _, _, _, _, _, _, hz⟩
    exact hz Src.semantic_scholar (by decide) (("boom").data) rfl

/-- C5 (confirmed): for every pair of records of the input list that both
carry a DOI, the deduplicator puts them into one group exactly when their
DOIs agree after lowercasing and trimming — title content plays no role in
either direction. -/
theorem doi_grouping_iff (thr : ℚ) (ps : List Paper) (p1 p2 : Paper)
    (h1 : p1 ∈ ps) (h2 : p2 ∈ ps)
    (hd1 : strTruthy p1.doi = true) (hd2 : strTruthy p2.doi = true) :
    SameGroup (Deduplicator.dedupGroups thr ps) p1 p2 ↔
      Deduplicator.doiNorm p1 = Deduplicator.doiNorm p2 :=
  sameGroup_doi_iff thr ps p1 p2 h1 h2 hd1 hd2

/-- C5 (witness): equal-after-normalization DOIs with unrelated titles land
in one group; distinct DOIs with identical titles land in different groups. -/
theorem doi_grouping_iff_witness :
    SameGroup (Deduplicator.dedupGroups (17 / 20) [pW1, pW2]) pW1 pW2 ∧
    ¬SameGroup (Deduplicator.dedupGroups (17 / 20) [pW3, pW4]) pW3 pW4 := by
  constructor
  · exact (doi_grouping_iff (17 / 20) [pW1, pW2] pW1 pW2 (by simp) (by simp)
      (by decide) (by decide)).mpr (by decide)
  · intro hsg
    have heq := (doi_grouping_iff (17 / 20) [pW3, pW4] pW3 pW4 (by simp) (by simp)
      (by decide) (by decide)).mp hsg
    exact absurd heq (by decide)

/-- C9 (counterexample): the claim's consequence fails when the other record
carries no DOI — `pW5` (DOI `10.1/d`, unseen elsewhere; S2 id 5) and `pW6`
(no DOI, same S2 id 5) end up in the *same* group via the level-2 scan. -/
theorem doi_lower_level_join_counterexample :
    SameGroup (Deduplicator.dedupGroups (17 / 20) [pW5, pW6]) pW5 pW6 ∧
    strTruthy pW5.doi = true ∧ strTruthy pW6.doi = false ∧
    pW5.s2_corpus_id = pW6.s2_corpus_id := by
  refine ⟨⟨(("doi:10.1/d").data, [pW5, pW6]), by decide, by decide, by decide⟩,
    by decide, by decide, by decide⟩

/-- C9 (amended): an incoming record that carries a DOI has its group decided
by the DOI alone — the key depends only on the `doi` field and the existing
groups, a fresh normalized DOI always opens a new group, and two DOI-carrying
records with different normalized DOIs never share a group even if they share
provider identifiers or titles.  A *later DOI-less* record can however still
join that group through the lower levels (see the counterexample). -/
theorem doi_level_short_circuit_amended :
    (∀ (thr : ℚ) (gs : Groups) (p p' : Paper), p.doi = p'.doi →
      strTruthy p.doi = true →
      Deduplicator.get_dedup_key thr p gs = Deduplicator.get_dedup_key thr p' gs) ∧
    (∀ (thr : ℚ) (gs : Groups) (p : Paper), strTruthy p.doi = true → DoiInv gs →
      (∀ e ∈ gs, ∀ q ∈ e.2, strTruthy q.doi = true →
        Deduplicator.doiNorm q ≠ Deduplicator.doiNorm p) →
      Deduplicator.insertPaper thr gs p =
        gs ++ [(DoiKey (Deduplicator.doiNorm p), [p])]) ∧
    (∀ (thr : ℚ) (ps : List Paper) (p1 p2 : Paper), p1 ∈ ps → p2 ∈ ps →
      strTruthy p1.doi = true → strTruthy p2.doi = true →
      Deduplicator.doiNorm p1 ≠ Deduplicator.doiNorm p2 →
      ¬SameGroup (Deduplicator.dedupGroups thr ps) p1 p2) := by
  refine ⟨?_, ?_, ?_⟩
  · intro thr gs p p' hdoi hd
    have hd' : strTruthy p'.doi = true := by rw [← hdoi]; exact hd
    unfold Deduplicator.get_dedup_key
    simp only [hd, hd', if_true, Deduplicator.doiNorm]
    rw [hdoi]
  · intro thr gs p hd hinv hfresh
    have hkey := get_dedup_key_doi thr p gs hd hinv
    have hnone : gs.find? (fun e => e.2.any (fun q =>
        strTruthy q.doi &&
          (pyStrip (pyLower (q.doi.getD [])) == Deduplicator.doiNorm p))) = none := by
      rw [List.find?_eq_none]
      intro e he
      simp only [Bool.not_eq_true, List.any_eq_false]
      intro q hq
      by_cases hqd : strTruthy q.doi = true
      · simp only [hqd, Bool.true_and]
        exact beq_eq_false_iff_ne.mpr (hfresh e he q hq hqd)
      · simp [Bool.eq_false_iff.mpr hqd]
    have hnotmem : DoiKey (Deduplicator.doiNorm p) ∉ gs.map Prod.fst := by
      intro hc
      rcases List.mem_map.mp hc with ⟨e, he, hek⟩
      rcases hinv.2.1 e he (Deduplicator.doiNorm p) hek with ⟨q, hq, hqd, hqn⟩
      exact hfresh e he q hq hqd hqn
    unfold Deduplicator.insertPaper
    rw [hkey]
    exact addToGroups_of_not_mem gs _ p hnotmem
  · intro thr ps p1 p2 h1 h2 hd1 hd2 hne hsg
    exact hne ((sameGroup_doi_iff thr ps p1 p2 h1 h2 hd1 hd2).mp hsg)

/-- C9 (witness for the amended theorem): the three parts applied to concrete
records — the title field does not affect a DOI key, a fresh DOI opens a new
group in the empty group table, and the distinct-DOI identical-title pair is
not grouped. -/
theorem doi_level_short_circuit_amended_witness :
    Deduplicator.get_dedup_key (17 / 20) pW3 [] =
      Deduplicator.get_dedup_key (17 / 20) { pW3 with title := ("other").data } [] ∧
    Deduplicator.insertPaper (17 / 20) [] pW5 =
      [(DoiKey (Deduplicator.doiNorm pW5), [pW5])] ∧
    ¬SameGroup (Deduplicator.dedupGroups (17 / 20) [pW3, pW4]) pW3 pW4 := by
  refine ⟨?_, ?_, ?_⟩
  · exact doi_level_short_circuit_amended.1 (17 / 20) [] pW3
      { pW3 with title := ("other").data } (by decide) (by decide)
  · exact doi_level_short_circuit_amended.2.1 (17 / 20) [] pW5 (by decide)
      ⟨by simp, by simp, by simp⟩ (by simp)
  · exact doi_level_short_circuit_amended.2.2 (17 / 20) [pW3, pW4] pW3 pW4
      (by simp) (by simp) (by decide) (by decide) (by decide)

/-- C6 (confirmed): fuzzy title matching is attempted only for records that
carry none of the level-1..3 identifiers — for a record carrying one of them
the dedup key is unaffected by its title and year; for an identifier-less
pair, the incoming record joins the earlier one's group when the normalized
titles' similarity ratio reaches the threshold and the years (when both
present and non-zero) differ by at most one; a pair below the threshold (such
as similarity 0.80 against 0.85) with identical years stays in two separate
groups; and a year gap greater than one makes the title match fail regardless
of the titles.  (For the no-grouping part the records are assumed to carry no
canonical-fallback identifiers either — a shared Scopus/SciX id would merge
the records by dictionary key, outside fuzzy matching.) -/
theorem fuzzy_title_matching :
    (∀ (thr : ℚ) (gs : Groups) (p : Paper) (t : List Char) (y : Option Int),
      (strTruthy p.doi = true ∨ intTruthy p.s2_corpus_id = true ∨
          strTruthy p.openalex_id = true) →
      Deduplicator.get_dedup_key thr { p with title := t, year := y } gs =
        Deduplicator.get_dedup_key thr p gs) ∧
    (∀ (thr : ℚ) (p1 p2 : Paper), idLess p1 → idLess p2 →
      p1.normalize_title ≠ [] → p2.normalize_title ≠ [] →
      (intTruthy p2.year = true → intTruthy p1.year = true →
        (p2.year.getD 0 - p1.year.getD 0).natAbs ≤ 1) →
      thr ≤ smRatio p2.normalize_title p1.normalize_title →
      (Deduplicator.dedupGroups thr [p1, p2]).length = 1) ∧
    (∀ (thr : ℚ) (p1 p2 : Paper), idLess p1 → idLess p2 →
      strTruthy p1.scopus_eid = false → strTruthy p1.scix_bibcode = false →
      strTruthy p2.scopus_eid = false → strTruthy p2.scix_bibcode = false →
      intTruthy p1.year = true → intTruthy p2.year = true → p1.year = p2.year →
      p1.normalize_title ≠ p2.normalize_title →
      smRatio p2.normalize_title p1.normalize_title < thr →
      (Deduplicator.dedupGroups thr [p1, p2]).length = 2) ∧
    (∀ (thr : ℚ) (p1 p2 : Paper), intTruthy p1.year = true →
      intTruthy p2.year = true →
      1 < (p1.year.getD 0 - p2.year.getD 0).natAbs →
      Deduplicator.is_title_match thr p1 p2 = false) := by
  refine ⟨?_, ?_, ?_, is_title_match_false_of_year⟩
  · intro thr gs p t y hid
    unfold Deduplicator.get_dedup_key
    by_cases hdd : strTruthy p.doi = true
    · simp only [hdd, if_true, Deduplicator.doiNorm]
    · have hdf : strTruthy p.doi = false := Bool.eq_false_iff.mpr hdd
      simp only [hdf, Bool.false_eq_true, if_false]
      by_cases hss : intTruthy p.s2_corpus_id = true
      · simp only [hss, if_true]
      · have hsf : intTruthy p.s2_corpus_id = false := Bool.eq_false_iff.mpr hss
        simp only [hsf, Bool.false_eq_true, if_false]
        have hoo : strTruthy p.openalex_id = true := by
          rcases hid with h | h | h
          · exact absurd h hdd
          · exact absurd h hss
          · exact h
        simp only [hoo, if_true]
  · intro thr p1 p2 hi1 hi2 hn1 hn2 hyear hratio
    have hk1 : Deduplicator.get_dedup_key thr p1 [] = p1.get_canonical_id := by
      rw [get_dedup_key_idless thr p1 [] hi1]
      rfl
    have hmatch : Deduplicator.is_title_match thr p2 p1 = true :=
      is_title_match_of thr p2 p1 hn2 hn1 hyear hratio
    have hk2 : Deduplicator.get_dedup_key thr p2 [(p1.get_canonical_id, [p1])] =
        p1.get_canonical_id := by
      rw [get_dedup_key_idless thr p2 _ hi2]
      simp [hmatch]
    show (Deduplicator.insertPaper thr (Deduplicator.insertPaper thr [] p1)
      p2).length = 1
    unfold Deduplicator.insertPaper
    rw [hk1]
    show (Deduplicator.addToGroups
      (Deduplicator.addToGroups [] (p1.get_canonical_id) p1)
      (Deduplicator.get_dedup_key thr p2
        (Deduplicator.addToGroups [] (p1.get_canonical_id) p1)) p2).length = 1
    have hadd1 : Deduplicator.addToGroups [] (p1.get_canonical_id) p1 =
        [(p1.get_canonical_id, [p1])] := rfl
    rw [hadd1, hk2]
    unfold Deduplicator.addToGroups
    simp
  · intro thr p1 p2 hi1 hi2 hs1 hx1 hs2 hx2 hy1 hy2 hyeq hnne hratio
    have hk1 : Deduplicator.get_dedup_key thr p1 [] = p1.get_canonical_id := by
      rw [get_dedup_key_idless thr p1 [] hi1]
      rfl
    have hmatch : Deduplicator.is_title_match thr p2 p1 = false :=
      is_title_match_false_of_ratio thr p2 p1 hratio
    have hk2 : Deduplicator.get_dedup_key thr p2 [(p1.get_canonical_id, [p1])] =
        p2.get_canonical_id := by
      rw [get_dedup_key_idless thr p2 _ hi2]
      simp [hmatch]
    have hkeyne : p1.get_canonical_id ≠ p2.get_canonical_id := by
      rw [canonical_title_form p1 hi1 hs1 hx1, canonical_title_form p2 hi2 hs2 hx2,
        hyeq]
      rw [List.append_assoc, List.append_assoc, List.append_assoc,
        List.append_assoc]
      intro hc
      exact hnne (List.append_cancel_right (List.append_cancel_left hc))
    show (Deduplicator.insertPaper thr (Deduplicator.insertPaper thr [] p1)
      p2).length = 2
    unfold Deduplicator.insertPaper
    rw [hk1]
    have hadd1 : Deduplicator.addToGroups [] (p1.get_canonical_id) p1 =
        [(p1.get_canonical_id, [p1])] := rfl
    rw [hadd1, hk2]
    unfold Deduplicator.addToGroups
    rw [if_neg (by simpa using hkeyne)]
    rfl

set_option maxRecDepth 8192 in
/-- C6 (witness): the four parts of the fuzzy-matching theorem at concrete
records — an identifier's key ignores title and year; `pF1`/`pF2` (ratio 1,
years one apart) merge into one group; `pF3`/`pF4` (ratio 0.80, same year)
stay in two groups under threshold 0.85; and a three-year gap kills the
match. -/
theorem fuzzy_title_matching_witness :
    Deduplicator.get_dedup_key (17 / 20)
        { pW5 with title := ("t").data, year := some 2 } [] =
      Deduplicator.get_dedup_key (17 / 20) pW5 [] ∧
    (Deduplicator.dedupGroups (17 / 20) [pF1, pF2]).length = 1 ∧
    (Deduplicator.dedupGroups (17 / 20) [pF3, pF4]).length = 2 ∧
    Deduplicator.is_title_match (17 / 20) pF1 pF5 = false := by
  refine ⟨?_, ?_, ?_, ?_⟩
  · exact fuzzy_title_matching.1 (17 / 20) [] pW5 (("t").data) (some 2)
      (Or.inr (Or.inl (by decide)))
  · refine fuzzy_title_matching.2.1 (17 / 20) pF1 pF2 ⟨rfl, rfl, rfl⟩
      ⟨rfl, rfl, rfl⟩ (by decide) (by decide) (by decide) ?_
    have hM : matchedTotal (Paper.normalize_title pF2) (Paper.normalize_title pF1) =
        20 := rfl
    have hL1 : (Paper.normalize_title pF2).length = 20 := rfl
    have hL2 : (Paper.normalize_title pF1).length = 20 := rfl
    unfold smRatio
    rw [hM, hL1, hL2]
    norm_num
  · refine fuzzy_title_matching.2.2.1 (17 / 20) pF3 pF4 ⟨rfl, rfl, rfl⟩
      ⟨rfl, rfl, rfl⟩ (by decide) (by decide) (by decide) (by decide) (by decide)
      (by decide) (by decide) (by decide) ?_
    have hM : matchedTotal (Paper.normalize_title pF4) (Paper.normalize_title pF3) =
        4 := rfl
    have hL1 : (Paper.normalize_title pF4).length = 5 := rfl
    have hL2 : (Paper.normalize_title pF3).length = 5 := rfl
    unfold smRatio
    rw [hM, hL1, hL2]
    norm_num
  · exact fuzzy_title_matching.2.2.2 (17 / 20) pF1 pF5 (by decide) (by decide)
      (by decide)

end McpScholar
